import Mathlib

/-!
Verification development for the Governor repository (a configurable
state-machine supervisor driving physical devices through declared states
and transitions).

The definitions below are a shallow embedding of `src/cfgmanager.py` and
`src/components.py`:

* YAML mappings become association lists (`List (String × α)`) to preserve
  insertion order; lookup finds the first matching key and insertion
  updates an existing key in place or appends a new one, matching Python
  `dict` semantics.
* Optional keys of the raw configuration become `Option` fields; reading a
  missing key raises, which is modelled with `Except Exc`.
* Side effects that the properties observe (hardware move commands, waits,
  config-file commits, position writes) are recorded in an event trace.
* Logging is modelled only where the properties observe it: the
  configuration checker accumulates a list of structured errors, one per
  `logger.error` call site of `cfgmanager.py`.
-/

/-- A Python value stored in a device's positions mapping: numbers are the
common case, but `Device.val` can also produce a position-name string
(the `positions.get(name, name)` fallback). -/
inductive Val where
  | num (n : Int)
  | str (s : String)
deriving DecidableEq, Repr

/-- Python exceptions reachable in the embedded code paths. -/
inductive Exc where
  | keyError (k : String)
  | indexError
  | valueError (m : String)
  | typeError
deriving DecidableEq, Repr

/-- First-match lookup in an association list (Python `d[k]` / `k in d`). -/
def lookupA {α : Type} : List (String × α) → String → Option α
  | [], _ => none
  | (k, v) :: rest, key => if k == key then some v else lookupA rest key

/-- Python `d[k] = v`: update the first occurrence of the key in place,
otherwise append the new binding. -/
def insertA {α : Type} : List (String × α) → String → α → List (String × α)
  | [], key, v => [(key, v)]
  | (k, w) :: rest, key, v =>
    if k == key then (key, v) :: rest else (k, w) :: insertA rest key v

/-- The keys of an association list, in order. -/
def keysA {α : Type} (l : List (String × α)) : List String := l.map (·.1)

/-! ## Raw configuration schema

Mirrors the YAML structure consumed by `cfgmanager.py` and
`components.py`. Only the keys the source ever reads are represented;
a missing key is `none`. -/

/-- One element of a transition sequence: a single device name or a list
of device names moved in parallel. -/
inductive SeqItem where
  | single (d : String)
  | group (ds : List String)
deriving DecidableEq, Repr

/-- A transition sequence (`transitions[origin][destination]`). -/
abbrev TransSeq := List SeqItem

/-- Raw device configuration (`devices[name]` in the YAML file). -/
structure DeviceCfg where
  type? : Option String := none
  name? : Option String := none
  timeout? : Option Int := none
  pv? : Option String := none
  tolerance? : Option Int := none
  positions? : Option (List (String × Val)) := none
deriving DecidableEq, Repr

/-- Python `key in device` for the keys the checker queries. -/
def DeviceCfg.hasKey (d : DeviceCfg) : String → Bool
  | "type" => d.type?.isSome
  | "name" => d.name?.isSome
  | "timeout" => d.timeout?.isSome
  | "pv" => d.pv?.isSome
  | "tolerance" => d.tolerance?.isSome
  | "positions" => d.positions?.isSome
  | _ => false

/-- Raw per-device target inside a state (`states[s].targets[d]`). -/
structure TargetCfg where
  target? : Option String := none
  limits? : Option (List Int) := none
  updateAfter? : Option Bool := none
deriving DecidableEq, Repr

/-- Python `key in device_target` for the keys the checker queries. -/
def TargetCfg.hasKey (t : TargetCfg) : String → Bool
  | "target" => t.target?.isSome
  | "limits" => t.limits?.isSome
  | "updateAfter" => t.updateAfter?.isSome
  | _ => false

/-- Raw state configuration (`states[name]` in the YAML file). -/
structure StateCfg where
  name? : Option String := none
  targets? : Option (List (String × TargetCfg)) := none
deriving DecidableEq, Repr

/-- The root of the YAML configuration file. -/
structure RootCfg where
  init_state? : Option String := none
  devices? : Option (List (String × DeviceCfg)) := none
  states? : Option (List (String × StateCfg)) := none
  transitions? : Option (List (String × List (String × TransSeq))) := none
deriving DecidableEq, Repr

/-! ## Devices (`components.py`)

The three registered device classes are `Device` (the dummy base class),
`Motor` and `Valve`. The EPICS channels are external hardware; the live
readback a device would report is carried in `liveVal`. Supervisor events
emitted by callbacks (DISCONNECT, LIMITS_VIOLATED, TIMEOUT) only feed the
worker queue and are not modelled here; the transition code observes them
solely through the abort flag and the status word, which appear below as
environment oracles. -/

/-- The device-type registry tag (`device_types_registry`). -/
inductive DType where
  | device
  | motor
  | valve
deriving DecidableEq, Repr

/-- `REQUIRED_FIELDS` of each registered device class, keyed by the raw
type string; `none` means the type is not in `device_types_registry`. -/
def REQUIRED_FIELDS : String → Option (List String)
  | "Device" => some ["name", "timeout"]
  | "Motor" => some ["name", "timeout", "pv", "tolerance", "positions"]
  | "Valve" => some ["name", "timeout", "pv"]
  | _ => none

/-- Runtime state of one device object: its type, its (aliased, mutable)
raw configuration, the currently assigned target (`Device._target`) and
the live hardware readback. -/
structure DeviceState where
  dtype : DType
  cfg : DeviceCfg
  target : Option TargetCfg := none
  liveVal : Option Val := none
deriving DecidableEq, Repr

/-- `Device.positions`: the `Valve` override returns a fresh literal
mapping on every access; the base class returns the raw config's
`positions` entry (or a fresh empty mapping when the key is absent). -/
def DeviceState.positions (d : DeviceState) : List (String × Val) :=
  match d.dtype with
  | DType.valve => [("Open", Val.num 1), ("Closed", Val.num 0)]
  | _ => d.cfg.positions?.getD []

/-- `Device.val` / `Motor.val` / `Valve.val`: the dummy base class derives
its value from the assigned target (`target_pos`, reading
`self._target.target`, which raises `KeyError` when the key is missing);
the hardware classes read their channel. -/
def DeviceState.valE (d : DeviceState) : Except Exc (Option Val) :=
  match d.dtype with
  | DType.device =>
    match d.target with
    | none => Except.ok none
    | some t =>
      match t.target? with
      | none => Except.error (Exc.keyError "target")
      | some tn => Except.ok (some ((lookupA d.positions tn).getD (Val.str tn)))
  | _ => Except.ok d.liveVal

/-- `Device.move(target)` (and the `Motor`/`Valve` overrides): the current
target latches to `None` first; then `target.target` is read (a missing
key raises), and a `Valve` refuses any position other than
`Open`/`Closed` with `ValueError`. The returned flag is `none` when the
hardware command was dispatched; the caller records the move event. -/
def deviceMove (d : DeviceState) (tgt : TargetCfg) : DeviceState × Option Exc :=
  let d0 := { d with target := none }
  match tgt.target? with
  | none => (d0, some (Exc.keyError "target"))
  | some tn =>
    match d.dtype with
    | DType.valve =>
      if tn == "Open" || tn == "Closed" then (d0, none)
      else (d0, some (Exc.valueError tn))
    | _ => (d0, none)

/-- `device.target = target` with a non-`None` target: the field is set
first; the `Motor`/`Valve` setters then re-run the band check
`_value_changed` against the new target. In source evaluation order the
check reads `target.target` (the position name, `KeyError` when
missing), `limits` (`KeyError`) and `limits[0]` (`IndexError`); adding
the limit to a `target_pos` that fell back to the raw position name (a
string, via `positions.get(name, name)`) raises `TypeError`; a `Motor`
then reads `config['tolerance']` (`KeyError` when absent); finally
`limits[1]` is read for the upper bound (`IndexError`). The comparison
against the live readback itself only enqueues a supervisor event and
is abstracted. -/
def assignTarget (d : DeviceState) (tgt : TargetCfg) : DeviceState × Option Exc :=
  let d' := { d with target := some tgt }
  match d.dtype with
  | DType.device => (d', none)
  | DType.motor =>
    match tgt.target? with
    | none => (d', some (Exc.keyError "target"))
    | some tn =>
      match tgt.limits? with
      | none => (d', some (Exc.keyError "limits"))
      | some ls =>
        match ls.get? 0 with
        | none => (d', some Exc.indexError)
        | some _ =>
          match (lookupA d.positions tn).getD (Val.str tn) with
          | Val.str _ => (d', some Exc.typeError)
          | Val.num _ =>
            match d.cfg.tolerance? with
            | none => (d', some (Exc.keyError "tolerance"))
            | some _ =>
              match ls.get? 1 with
              | none => (d', some Exc.indexError)
              | some _ => (d', none)
  | DType.valve =>
    match tgt.target? with
    | none => (d', some (Exc.keyError "target"))
    | some tn =>
      match tgt.limits? with
      | none => (d', some (Exc.keyError "limits"))
      | some ls =>
        match ls.get? 0 with
        | none => (d', some Exc.indexError)
        | some _ =>
          match (lookupA d.positions tn).getD (Val.str tn) with
          | Val.str _ => (d', some Exc.typeError)
          | Val.num _ =>
            match ls.get? 1 with
            | none => (d', some Exc.indexError)
            | some _ => (d', none)

/-! ## Governor state (`components.py`, class `Governor`)

Status codes follow the source: 0 = IDLE, 1 = BUSY, 2 = DISABLED,
3 = FAULT. The `states` field is the in-memory `states` section of the
configuration; the `State`/`Target` wrapper objects of the source are
views into it, so edits through them mutate this field. Observer
notifications are not modelled (no property observes them). -/

/-- Observable side effects of governor operations, in order. -/
inductive Ev where
  | move (dev : String) (tgt : TargetCfg)
  | wait (dev : String)
  | setPos (dev pos : String) (v : Option Val)
  | commit
deriving DecidableEq, Repr

/-- The mutable state of one `Governor` object. -/
structure GovState where
  init_state : String
  current_state : String
  next_state : String
  status : Nat
  devices : List (String × DeviceState)
  states : List (String × StateCfg)
  transitions : List (String × List (String × TransSeq))
  disconnected : List String := []
  alarmed : List String := []
  not_homed : List String := []
deriving DecidableEq, Repr

/-- The move events of a trace. -/
def movesOf (tr : List Ev) : List Ev :=
  tr.filter (fun e => match e with | Ev.move _ _ => true | _ => false)

/-- The commit events of a trace. -/
def commitsOf (tr : List Ev) : List Ev :=
  tr.filter (fun e => match e with | Ev.commit => true | _ => false)

/-- `Governor.set_state(state, force)`: when the state actually changes
(or `force` is set) both the current and next state move to `state`, and
entering the init state clears every device's assigned target. -/
def set_state (g : GovState) (state : String) (force : Bool) : GovState :=
  if g.current_state != state || force then
    let g1 := { g with current_state := state, next_state := state }
    if state == g.init_state then
      { g1 with devices := g1.devices.map (fun nd => (nd.1, { nd.2 with target := none })) }
    else g1
  else g

/-- `Governor.status_message`: on Fault, render the non-empty fault lists
tagged `disconn`, `alarm`, `!homed`, space-joined; otherwise report the
stable state or the in-flight transition. -/
def status_message (g : GovState) : String :=
  if g.status == 3 then
    let pairs := [("disconn", g.disconnected), ("alarm", g.alarmed), ("!homed", g.not_homed)]
    let err := pairs.foldl
      (fun acc nd =>
        if nd.2.isEmpty then acc
        else acc ++ [nd.1 ++ "(" ++ String.intercalate "," nd.2 ++ ")"]) []
    String.intercalate " " err
  else if g.next_state == g.current_state then
    "state " ++ g.current_state
  else
    "transition " ++ g.current_state ++ " to " ++ g.next_state

/-- `Governor.set_device_position(device, position, value)`: with a
`None` value the source only logs a warning and still returns `True`.
With a value, `self._devices[device].positions[position] = value`
mutates whatever `positions` returns: the aliased config mapping for the
base class and `Motor` (when the raw config has a `positions` key), but a
fresh temporary for `Valve` (and for a base device without the key), in
which case the write is lost; the config is then committed. -/
def set_device_position (g : GovState) (device position : String) (value : Option Val) :
    Except Exc (Bool × GovState × List Ev) :=
  match value with
  | some v =>
    match lookupA g.devices device with
    | none => Except.error (Exc.keyError device)
    | some d =>
      let d' :=
        match d.dtype with
        | DType.valve => d
        | _ =>
          match d.cfg.positions? with
          | some ps => { d with cfg := { d.cfg with positions? := some (insertA ps position v) } }
          | none => d
      let g' := { g with devices := insertA g.devices device d' }
      Except.ok (true, g', [Ev.setPos device position (some v), Ev.commit])
  | none => Except.ok (true, g, [])

/-- `Governor.set_state_device_limit(state, device, limit, value)`: read
the old limits through the `State`/`Target` wrappers (every missing key
raises), build the new pair, reject it when the lower limit exceeds the
upper, and otherwise write it through to the config and commit. -/
def set_state_device_limit (g : GovState) (state device : String) (limit : Nat) (value : Int) :
    Except Exc (Bool × GovState × List Ev) :=
  match lookupA g.states state with
  | none => Except.error (Exc.keyError state)
  | some st =>
    match st.targets? with
    | none => Except.error (Exc.keyError device)
    | some ts =>
      match lookupA ts device with
      | none => Except.error (Exc.keyError device)
      | some tgt =>
        match tgt.limits? with
        | none => Except.error (Exc.keyError "limits")
        | some ls =>
          let newLimits? : Except Exc (Int × Int) :=
            if limit == 0 then
              match ls.get? 1 with
              | none => Except.error Exc.indexError
              | some hi => Except.ok (value, hi)
            else
              match ls.get? 0 with
              | none => Except.error Exc.indexError
              | some lo => Except.ok (lo, value)
          match newLimits? with
          | Except.error e => Except.error e
          | Except.ok (lo, hi) =>
            if lo > hi then Except.ok (false, g, [])
            else
              let tgt' := { tgt with limits? := some [lo, hi] }
              let st' := { st with targets? := some (insertA ts device tgt') }
              Except.ok (true, { g with states := insertA g.states state st' }, [Ev.commit])

/-! ## Parsing transitions and reachability (`Governor._parse_config`,
`Governor.reachable_states`) -/

/-- The transition-parsing loop of `Governor._parse_config`: for every
origin appearing in the config's `transitions` mapping, start from the
implicit reset edge to the init state (with an empty sequence) when the
origin is not the init state, then insert the declared destinations in
order (an explicit edge to the init state overwrites the implicit one). -/
def parseTransitions (init : String) (raw : List (String × List (String × TransSeq))) :
    List (String × List (String × TransSeq)) :=
  raw.map (fun ot =>
    let base : List (String × TransSeq) := if ot.1 != init then [(init, [])] else []
    (ot.1, ot.2.foldl (fun m ds => insertA m ds.1 ds.2) base))

/-- `Governor.reachable_states(origin)`: the origin itself plus the keys
of `transitions[origin]`; an origin absent from the parsed transitions
mapping raises `KeyError`. -/
def reachable_states (transitions : List (String × List (String × TransSeq)))
    (origin : String) : Except Exc (List String) :=
  match lookupA transitions origin with
  | none => Except.error (Exc.keyError origin)
  | some m => Except.ok (origin :: keysA m)

/-! ## Configuration checker (`cfgmanager.py`, class `ConfigManager`)

Each `logger.error` call site of the checker is represented by one
constructor of `CfgErr`; every check returns the flag it computes plus
the errors it logged, in order, inside `Except` because some raw-config
reads raise `KeyError`/`IndexError`. Python's set of sequence devices is
modelled as a first-occurrence-deduplicated list (the source iterates a
`set`, whose order is unspecified). -/

/-- One logged configuration error (one constructor per `logger.error`
call site of `cfgmanager.py`). -/
inductive CfgErr where
  | missingParam (param place : String)
  | badDeviceType (device : String)
  | unknownStateDevice (state device : String)
  | invalidTarget (state device target : String)
  | badLimits (state device : String)
  | invalidOrigin (origin : String)
  | invalidDestination (destination : String)
  | selfTransition (origin : String)
  | unknownSeqDevice (origin destination device : String)
  | seqDeviceNotInDestination (origin destination device : String)
  | invalidInitState (init : String)
deriving DecidableEq, Repr

/-- Result of one validation step: raised, or a flag plus logged errors. -/
abbrev CheckRes := Except Exc (Bool × List CfgErr)

/-- Python `key in config` at the root of the configuration. -/
def RootCfg.hasKey (c : RootCfg) : String → Bool
  | "init_state" => c.init_state?.isSome
  | "devices" => c.devices?.isSome
  | "states" => c.states?.isSome
  | "transitions" => c.transitions?.isSome
  | _ => false

/-- `ConfigManager._check_mandatory`: every missing parameter is logged;
the flag is true only when all are present. -/
def check_mandatory (mandatory : List String) (present : String → Bool) (place : String) :
    Bool × List CfgErr :=
  mandatory.foldl
    (fun acc param =>
      if present param then acc
      else (false, acc.2 ++ [CfgErr.missingParam param place]))
    (true, [])

/-- `ConfigManager._check_root_mandatory`: `init_state`, `devices` and
`states` must be present at the root (`transitions` is not mandatory). -/
def check_root_mandatory (cfg : RootCfg) : Bool × List CfgErr :=
  check_mandatory ["init_state", "devices", "states"] cfg.hasKey "root"

/-- `ConfigManager._check_init_state`: the declared init state must be a
key of `states`; reading either raw key can raise. -/
def check_init_state (cfg : RootCfg) : CheckRes :=
  match cfg.init_state? with
  | none => Except.error (Exc.keyError "init_state")
  | some init =>
    match cfg.states? with
    | none => Except.error (Exc.keyError "states")
    | some sts =>
      if (lookupA sts init).isNone then Except.ok (false, [CfgErr.invalidInitState init])
      else Except.ok (true, [])

/-- The per-device body of `ConfigManager._check_devices`: `type` must be
present and registered; the registry lookup on line 117 runs even after
`_check_type` failed, so an unknown type raises `KeyError` right after
being logged; the type's `REQUIRED_FIELDS` must all be present. -/
def checkDevicesLoop : List (String × DeviceCfg) → Bool → List CfgErr → CheckRes
  | [], ok, errs => Except.ok (ok, errs)
  | (name, device) :: rest, ok, errs =>
    let place := "device[" ++ name ++ "]"
    let (okT, errsT) := check_mandatory ["type"] device.hasKey place
    if !okT then checkDevicesLoop rest false (errs ++ errsT)
    else
      match device.type? with
      | none => Except.error (Exc.keyError "type")
      | some t =>
        let (ok2, errs2) :=
          if (REQUIRED_FIELDS t).isSome then (ok, errs ++ errsT)
          else (false, errs ++ errsT ++ [CfgErr.badDeviceType name])
        match REQUIRED_FIELDS t with
        | none => Except.error (Exc.keyError t)
        | some required =>
          let (okR, errsR) := check_mandatory required device.hasKey place
          checkDevicesLoop rest (if okR then ok2 else false) (errs2 ++ errsR)

/-- `ConfigManager._check_devices`. -/
def check_devices (cfg : RootCfg) : CheckRes :=
  match cfg.devices? with
  | none => Except.error (Exc.keyError "devices")
  | some devs => checkDevicesLoop devs true []

/-- The per-target body of `ConfigManager._check_states`: the referenced
device must exist (otherwise log and continue); `target` and `limits`
must be present; when the device's raw config enumerates positions the
target name must be one of them (the error log re-reads
`device_target['target']`, which raises when the key is missing). -/
def checkStateTargetsLoop (cfg : RootCfg) (stateName : String) :
    List (String × TargetCfg) → Bool → List CfgErr → CheckRes
  | [], ok, errs => Except.ok (ok, errs)
  | (dn, dt) :: rest, ok, errs =>
    match cfg.devices? with
    | none => Except.error (Exc.keyError "devices")
    | some devs =>
      match lookupA devs dn with
      | none =>
        checkStateTargetsLoop cfg stateName rest false
          (errs ++ [CfgErr.unknownStateDevice stateName dn])
      | some devCfg =>
        let place := "state[" ++ stateName ++ "] device[" ++ dn ++ "]"
        let (okM, errsM) := check_mandatory ["target", "limits"] dt.hasKey place
        let targetName := if okM then dt.target?.getD "" else ""
        let ok1 := ok && okM
        let errs1 := errs ++ errsM
        match devCfg.positions? with
        | some ps =>
          if (lookupA ps targetName).isNone then
            match dt.target? with
            | none => Except.error (Exc.keyError "target")
            | some tn =>
              checkStateTargetsLoop cfg stateName rest false
                (errs1 ++ [CfgErr.invalidTarget stateName dn tn])
          else checkStateTargetsLoop cfg stateName rest ok1 errs1
        | none => checkStateTargetsLoop cfg stateName rest ok1 errs1

/-- The per-state body of `ConfigManager._check_states`. -/
def checkStatesLoop (cfg : RootCfg) : List (String × StateCfg) → Bool → List CfgErr → CheckRes
  | [], ok, errs => Except.ok (ok, errs)
  | (name, st) :: rest, ok, errs =>
    match checkStateTargetsLoop cfg name (st.targets?.getD []) ok errs with
    | Except.error e => Except.error e
    | Except.ok (ok', errs') => checkStatesLoop cfg rest ok' errs'

/-- `ConfigManager._check_states`. -/
def check_states (cfg : RootCfg) : CheckRes :=
  match cfg.states? with
  | none => Except.error (Exc.keyError "states")
  | some sts => checkStatesLoop cfg sts true []

/-- The per-target body of `ConfigManager._check_limits`: both `target`
and `limits` are read (raising when missing); a lower limit greater than
the upper one is logged. Indexing `limits[0]`/`limits[1]` raises
`IndexError` on a too-short list. -/
def checkLimitTargetsLoop (stateName : String) :
    List (String × TargetCfg) → Bool → List CfgErr → CheckRes
  | [], ok, errs => Except.ok (ok, errs)
  | (dev, dt) :: rest, ok, errs =>
    match dt.target? with
    | none => Except.error (Exc.keyError "target")
    | some _ =>
      match dt.limits? with
      | none => Except.error (Exc.keyError "limits")
      | some ls =>
        match ls.get? 0 with
        | none => Except.error Exc.indexError
        | some l0 =>
          match ls.get? 1 with
          | none => Except.error Exc.indexError
          | some l1 =>
            if l0 > l1 then
              checkLimitTargetsLoop stateName rest false (errs ++ [CfgErr.badLimits stateName dev])
            else checkLimitTargetsLoop stateName rest ok errs

/-- The per-state body of `ConfigManager._check_limits`: states without a
`targets` key are skipped. -/
def checkLimitsLoop : List (String × StateCfg) → Bool → List CfgErr → CheckRes
  | [], ok, errs => Except.ok (ok, errs)
  | (name, st) :: rest, ok, errs =>
    match st.targets? with
    | none => checkLimitsLoop rest ok errs
    | some ts =>
      match checkLimitTargetsLoop name ts ok errs with
      | Except.error e => Except.error e
      | Except.ok (ok', errs') => checkLimitsLoop rest ok' errs'

/-- `ConfigManager._check_limits`. -/
def check_limits (cfg : RootCfg) : CheckRes :=
  match cfg.states? with
  | none => Except.error (Exc.keyError "states")
  | some sts => checkLimitsLoop sts true []

/-- The devices mentioned by a transition sequence, as the source's
`set` (modelled as a first-occurrence-deduplicated list; the set's
iteration order is unspecified in Python). -/
def seqDevices (sequence : TransSeq) : List String :=
  sequence.foldl
    (fun acc item =>
      match item with
      | SeqItem.single d => if acc.contains d then acc else acc ++ [d]
      | SeqItem.group ds =>
        ds.foldl (fun acc2 d => if acc2.contains d then acc2 else acc2 ++ [d]) acc)
    []

/-- Loop over a transition's devices checking they are declared
(`device_name not in self._raw_config['devices']`, read per iteration). -/
def checkSeqDeclaredLoop (cfg : RootCfg) (origin destination : String) :
    List String → Bool → List CfgErr → CheckRes
  | [], ok, errs => Except.ok (ok, errs)
  | d :: rest, ok, errs =>
    match cfg.devices? with
    | none => Except.error (Exc.keyError "devices")
    | some devs =>
      if (lookupA devs d).isNone then
        checkSeqDeclaredLoop cfg origin destination rest false
          (errs ++ [CfgErr.unknownSeqDevice origin destination d])
      else checkSeqDeclaredLoop cfg origin destination rest ok errs

/-- Loop over a transition's devices checking they appear in the
destination's targets (`destination_state['targets']` is read per
iteration and raises when the key is missing). -/
def checkSeqInDestLoop (origin destination : String) (destState : StateCfg) :
    List String → Bool → List CfgErr → CheckRes
  | [], ok, errs => Except.ok (ok, errs)
  | d :: rest, ok, errs =>
    match destState.targets? with
    | none => Except.error (Exc.keyError "targets")
    | some ts =>
      if (lookupA ts d).isNone then
        checkSeqInDestLoop origin destination destState rest false
          (errs ++ [CfgErr.seqDeviceNotInDestination origin destination d])
      else checkSeqInDestLoop origin destination destState rest ok errs

/-- The per-destination body of `ConfigManager._check_transitions`:
destination declared, origin distinct from destination, sequence devices
declared and present in the destination's targets. Looking up
`self._raw_config['states'][destination]` (line 216) runs even after the
destination was reported unknown, raising `KeyError`. -/
def checkTransDestLoop (cfg : RootCfg) (origin : String) :
    List (String × TransSeq) → Bool → List CfgErr → CheckRes
  | [], ok, errs => Except.ok (ok, errs)
  | (destination, sequence) :: rest, ok, errs =>
    match cfg.states? with
    | none => Except.error (Exc.keyError "states")
    | some sts =>
      let (ok1, errs1) :=
        if (lookupA sts destination).isNone then
          (false, errs ++ [CfgErr.invalidDestination destination])
        else (ok, errs)
      let (ok2, errs2) :=
        if origin == destination then (false, errs1 ++ [CfgErr.selfTransition origin])
        else (ok1, errs1)
      let devNames := seqDevices sequence
      match checkSeqDeclaredLoop cfg origin destination devNames ok2 errs2 with
      | Except.error e => Except.error e
      | Except.ok (ok3, errs3) =>
        match lookupA sts destination with
        | none => Except.error (Exc.keyError destination)
        | some destState =>
          match checkSeqInDestLoop origin destination destState devNames ok3 errs3 with
          | Except.error e => Except.error e
          | Except.ok (ok4, errs4) => checkTransDestLoop cfg origin rest ok4 errs4

/-- The per-origin body of `ConfigManager._check_transitions`. -/
def checkTransitionsLoop (cfg : RootCfg) :
    List (String × List (String × TransSeq)) → Bool → List CfgErr → CheckRes
  | [], ok, errs => Except.ok (ok, errs)
  | (origin, transition) :: rest, ok, errs =>
    match cfg.states? with
    | none => Except.error (Exc.keyError "states")
    | some sts =>
      let (ok1, errs1) :=
        if (lookupA sts origin).isNone then (false, errs ++ [CfgErr.invalidOrigin origin])
        else (ok, errs)
      match checkTransDestLoop cfg origin transition ok1 errs1 with
      | Except.error e => Except.error e
      | Except.ok (ok2, errs2) => checkTransitionsLoop cfg rest ok2 errs2

/-- `ConfigManager._check_transitions`: reading the raw `transitions`
key raises `KeyError` when it is absent (it is not a mandatory root
key). -/
def check_transitions (cfg : RootCfg) : CheckRes :=
  match cfg.transitions? with
  | none => Except.error (Exc.keyError "transitions")
  | some tlist => checkTransitionsLoop cfg tlist true []

/-- The six validation steps of `ConfigManager.check_config`, in the
source's order. -/
def checksOf (cfg : RootCfg) : List CheckRes :=
  [Except.ok (check_root_mandatory cfg), check_init_state cfg, check_devices cfg,
   check_states cfg, check_limits cfg, check_transitions cfg]

/-- The loop of `ConfigManager.check_config`: run the steps in order and
return `False` as soon as one fails; the errors reported are those of
the steps that actually ran. -/
def runChecks : List CheckRes → CheckRes
  | [] => Except.ok (true, [])
  | c :: cs =>
    match c with
    | Except.error e => Except.error e
    | Except.ok (b, log) =>
      if b then
        match runChecks cs with
        | Except.error e => Except.error e
        | Except.ok (b', log') => Except.ok (b', log ++ log')
      else Except.ok (false, log)

/-- `ConfigManager.check_config`. -/
def check_config (cfg : RootCfg) : CheckRes :=
  runChecks (checksOf cfg)

/-- Combining one validation step with the rest when every step runs:
an exception from either side escapes; otherwise the flags are
conjoined and the error logs concatenated. -/
def combineRes (c r : CheckRes) : CheckRes :=
  match c, r with
  | Except.error e, _ => Except.error e
  | Except.ok _, Except.error e => Except.error e
  | Except.ok (b, log), Except.ok (b', log') => Except.ok (b && b', log ++ log')

/-- Modelled from the spec: "a failure in any step marks the config
invalid overall, but *all* checks run so the user sees every error at
once". Runs every step and combines all flags and all logged errors. -/
def specRun : List CheckRes → CheckRes
  | [] => Except.ok (true, [])
  | c :: cs => combineRes c (specRun cs)

/-- Modelled from the spec: `check_config` as the specification words
describe it — every validation step runs and every error is reported. -/
def spec_check_config (cfg : RootCfg) : CheckRes :=
  specRun (checksOf cfg)

/-! ## Transition execution (`Governor._do_transition`, `do_transition`)

`_abort_transition` and `_status` are written concurrently by the
supervisor thread while a transition runs (`_do_transition` itself never
writes either). Each read of these flags inside the transition therefore
goes through an environment oracle indexed by the number of reads made so
far: `abortAt n` (resp. `statusAt n`) is the flag's value at its `n`-th
read. During a transition the supervisor only ever sets the abort flag,
so a monotone `abortAt` describes every real schedule. All state the
transition itself owns (current/next state, device targets, the config)
is threaded explicitly. -/

/-- The supervisor-owned flags as seen by the transition's reads. -/
structure Env where
  statusAt : Nat → Nat
  abortAt : Nat → Bool

/-- The schedule with no supervisor interference: the status stays BUSY
and the abort flag stays clear. -/
def quietEnv : Env :=
  { statusAt := fun _ => 1, abortAt := fun _ => false }

/-- Execution state of a running transition: governor state, emitted
events, and the two oracle read counters. -/
structure ExecS where
  g : GovState
  tr : List Ev
  ts : Nat
  ta : Nat

/-- The write-back loop of `_do_transition` (lines 714–717): for every
target of the origin state marked `updateAfter`, persist the device's
live value as the new position setpoint via `set_device_position`
(argument order: `target.target` is read before the device lookup). -/
def updateAfterLoop (g : GovState) (tr : List Ev) :
    List (String × TargetCfg) → (GovState × List Ev) × Option Exc
  | [] => ((g, tr), none)
  | (device, target) :: rest =>
    if target.updateAfter?.getD false then
      match target.target? with
      | none => ((g, tr), some (Exc.keyError "target"))
      | some tname =>
        match lookupA g.devices device with
        | none => ((g, tr), some (Exc.keyError device))
        | some d =>
          match d.valE with
          | Except.error e => ((g, tr), some e)
          | Except.ok v =>
            match set_device_position g device tname v with
            | Except.error e => ((g, tr), some e)
            | Except.ok (_, g', evs) => updateAfterLoop g' (tr ++ evs) rest
    else updateAfterLoop g tr rest

/-- Resolving one sequence step to its `(device, target)` pairs
(`self._devices[i]`, `targets[i]`; a missing key raises). -/
def resolveStep (g : GovState) (targets : List (String × TargetCfg)) :
    List String → Except Exc (List (String × TargetCfg))
  | [] => Except.ok []
  | n :: rest =>
    match lookupA g.devices n with
    | none => Except.error (Exc.keyError n)
    | some _ =>
      match lookupA targets n with
      | none => Except.error (Exc.keyError n)
      | some t =>
        match resolveStep g targets rest with
        | Except.error e => Except.error e
        | Except.ok l => Except.ok ((n, t) :: l)

/-- The first sub-phase of a step (lines 739–742): record each device as
moved, then issue its `move` unless the abort flag reads true. -/
def movePhaseA (env : Env) : List (String × TargetCfg) → ExecS → List String →
    (ExecS × List String) × Option Exc
  | [], s, moved => ((s, moved), none)
  | (n, tgt) :: rest, s, moved =>
    let moved' := if moved.contains n then moved else moved ++ [n]
    let ab := env.abortAt s.ta
    let s1 := { s with ta := s.ta + 1 }
    if ab then movePhaseA env rest s1 moved'
    else
      match lookupA s1.g.devices n with
      | none => ((s1, moved'), some (Exc.keyError n))
      | some d =>
        let dm := deviceMove d tgt
        let s2 := { s1 with g := { s1.g with devices := insertA s1.g.devices n dm.1 } }
        match dm.2 with
        | some e => ((s2, moved'), some e)
        | none =>
          let s3 := { s2 with tr := s2.tr ++ [Ev.move n tgt] }
          movePhaseA env rest s3 moved'

/-- The second sub-phase of a step (lines 744–748): `wait()` then assign
the target, each guarded by a fresh read of the abort flag. -/
def movePhaseB (env : Env) : List (String × TargetCfg) → ExecS → ExecS × Option Exc
  | [], s => (s, none)
  | (n, tgt) :: rest, s =>
    let ab1 := env.abortAt s.ta
    let s1 := { s with ta := s.ta + 1 }
    let s2 := if ab1 then s1 else { s1 with tr := s1.tr ++ [Ev.wait n] }
    let ab2 := env.abortAt s2.ta
    let s3 := { s2 with ta := s2.ta + 1 }
    if ab2 then movePhaseB env rest s3
    else
      match lookupA s3.g.devices n with
      | none => movePhaseB env rest s3
      | some d =>
        let ad := assignTarget d tgt
        let s4 := { s3 with g := { s3.g with devices := insertA s3.g.devices n ad.1 } }
        match ad.2 with
        | some e => (s4, some e)
        | none => movePhaseB env rest s4

/-- How a run of the move loop ended: normally, by the `return` on a
Fault status at a step boundary, or with a raised exception. -/
inductive PhaseOut where
  | done
  | faultReturn
  | raised (e : Exc)
deriving DecidableEq, Repr

/-- The move loop of `_do_transition` (lines 728–748): at each step first
read the status (`if self.fault: return`), then resolve, move, wait and
assign. -/
def moveLoop (env : Env) (targets : List (String × TargetCfg)) :
    List SeqItem → ExecS → List String → (ExecS × List String) × PhaseOut
  | [], s, moved => ((s, moved), PhaseOut.done)
  | item :: rest, s, moved =>
    let isF := env.statusAt s.ts == 3
    let s0 := { s with ts := s.ts + 1 }
    if isF then ((s0, moved), PhaseOut.faultReturn)
    else
      let names := match item with | SeqItem.single d => [d] | SeqItem.group ds => ds
      match resolveStep s0.g targets names with
      | Except.error e => ((s0, moved), PhaseOut.raised e)
      | Except.ok devs =>
        match movePhaseA env devs s0 moved with
        | ((s1, moved'), some e) => ((s1, moved'), PhaseOut.raised e)
        | ((s1, moved'), none) =>
          match movePhaseB env devs s1 with
          | (s2, some e) => ((s2, moved'), PhaseOut.raised e)
          | (s2, none) => moveLoop env targets rest s2 moved'

/-- `Governor._do_transition(dest)`: refuse when disabled or when `dest`
is unreachable; set the next state; return at once when already in
`dest`; run the write-back phase, the move loop, the conditional
`set_state`, and finally clear the target of every device the sequence
did not move. The second component is the exception that escaped, if
any (caught by the caller). -/
def do_transition_inner (env : Env) (s : ExecS) (dest : String) : ExecS × Option Exc :=
  let origin := s.g.current_state
  let enabled := env.statusAt s.ts != 2
  let s0 := { s with ts := s.ts + 1 }
  if !enabled then (s0, none)
  else
    match reachable_states s0.g.transitions origin with
    | Except.error e => (s0, some e)
    | Except.ok reach =>
      if !(reach.contains dest) then (s0, none)
      else
        match lookupA s0.g.states origin with
        | none => (s0, some (Exc.keyError origin))
        | some originSt =>
          match lookupA s0.g.states dest with
          | none => (s0, some (Exc.keyError dest))
          | some destSt =>
            let s1 := { s0 with g := { s0.g with next_state := dest } }
            if origin == dest then (s1, none)
            else
              match updateAfterLoop s1.g s1.tr (originSt.targets?.getD []) with
              | ((g2, tr2), some e) => ({ s1 with g := g2, tr := tr2 }, some e)
              | ((g2, tr2), none) =>
                let s2 := { s1 with g := g2, tr := tr2 }
                match lookupA s2.g.transitions origin with
                | none => (s2, some (Exc.keyError origin))
                | some tmap =>
                  match lookupA tmap dest with
                  | none => (s2, some (Exc.keyError dest))
                  | some sequence =>
                    let dtargets := destSt.targets?.getD []
                    match moveLoop env dtargets sequence s2 [] with
                    | ((s3, _), PhaseOut.faultReturn) => (s3, none)
                    | ((s3, _), PhaseOut.raised e) => (s3, some e)
                    | ((s3, moved), PhaseOut.done) =>
                      let isF := env.statusAt s3.ts == 3
                      let s4 := { s3 with ts := s3.ts + 1 }
                      let setDecision :=
                        if isF then (false, s4)
                        else
                          let ab := env.abortAt s4.ta
                          (!ab, { s4 with ta := s4.ta + 1 })
                      let s5 := setDecision.2
                      let s6 :=
                        if setDecision.1 then { s5 with g := set_state s5.g dest false }
                        else s5
                      let devs7 := s6.g.devices.map
                        (fun nd => if moved.contains nd.1 then nd
                                   else (nd.1, { nd.2 with target := none }))
                      ({ s6 with g := { s6.g with devices := devs7 } }, none)

/-- `Governor.do_transition(dest)`: under the transition lock, set the
status to BUSY, run `_do_transition` (any exception is caught and
logged), and restore the status to IDLE when it is still BUSY. -/
def do_transition (env : Env) (g : GovState) (dest : String) : GovState × List Ev :=
  let g1 := { g with status := 1 }
  let r := do_transition_inner env { g := g1, tr := [], ts := 0, ta := 0 } dest
  let g2 := if r.1.g.status == 1 then { r.1.g with status := 0 } else r.1.g
  (g2, r.1.tr)

/-! ## Auxiliary definitions used by the statements -/

/-- The success flag of a governor operation, `none` when it raised. -/
def resultFlag (r : Except Exc (Bool × GovState × List Ev)) : Option Bool :=
  match r with
  | Except.ok (b, _, _) => some b
  | Except.error _ => none

/-- The device names of one sequence item. -/
def itemNames : SeqItem → List String
  | SeqItem.single d => [d]
  | SeqItem.group ds => ds

/-- All device names of a sequence, in order, with repetitions. -/
def seqNamesOf : List SeqItem → List String
  | [] => []
  | item :: rest => itemNames item ++ seqNamesOf rest

/-- The part of a device unaffected by position writes: its type, its
assigned target, its live value and its tolerance entry. -/
def devView (d : DeviceState) : DType × Option TargetCfg × Option Val × Option Int :=
  (d.dtype, d.target, d.liveVal, d.cfg.tolerance?)

/-- The position name resolves, on this device, to a numeric setpoint
(the `positions.get(name, name)` fallback would otherwise produce the
name itself, a string, on which the band arithmetic raises). -/
def numAt (d : DeviceState) (tn : String) : Prop :=
  ∃ k, (lookupA d.positions tn).getD (Val.str tn) = Val.num k

/-- A target a device can be moved to and assigned without raising: the
position name is present, a hardware device carries a well-formed
limits pair for the band re-check, a valve is only sent to
`Open`/`Closed`, and a motor has a `tolerance` entry and a target name
that resolves to a numeric setpoint. -/
def targetOKFor (d : DeviceState) (t : TargetCfg) : Prop :=
  t.target?.isSome = true ∧
  (d.dtype ≠ DType.device → ∃ ls, t.limits? = some ls ∧ 2 ≤ ls.length) ∧
  (d.dtype = DType.valve → t.target? = some "Open" ∨ t.target? = some "Closed") ∧
  (d.dtype = DType.motor → d.cfg.tolerance?.isSome = true ∧
    ∀ tn, t.target? = some tn → numAt d tn)

/-! ### Concrete configurations used by counterexamples and witnesses -/

/-- A dummy device (`type: Device`) named `nm`. -/
def dummyDev (nm : String) : DeviceState :=
  { dtype := DType.device,
    cfg := { type? := some "Device", name? := some nm, timeout? := some 5 } }

/-- A target at position `p` with limits `[-1, 1]`. -/
def mkTarget (p : String) : TargetCfg :=
  { target? := some p, limits? := some [-1, 1] }

/-- Destination targets of the C1 scenario: the destination state `B`
declares targets for both `d1` and `d2`. -/
def c1destTargets : List (String × TargetCfg) :=
  [("d1", mkTarget "p"), ("d2", mkTarget "q")]

/-- C1 scenario: two dummy devices; transition `A → B` whose sequence
moves only `d1`, although `B`'s targets also mention `d2`. -/
def c1gov : GovState :=
  { init_state := "A", current_state := "A", next_state := "A", status := 0,
    devices := [("d1", dummyDev "d1"), ("d2", dummyDev "d2")],
    states := [("A", {}), ("B", { targets? := some c1destTargets })],
    transitions := [("A", [("B", [SeqItem.single "d1"])])] }

/-- A motor-device governor with one declared position, for the
`set_device_position` scenarios. -/
def c5gov : GovState :=
  { init_state := "A", current_state := "A", next_state := "A", status := 0,
    devices := [("m",
      { dtype := DType.motor,
        cfg := { type? := some "Motor", name? := some "m", timeout? := some 5,
                 pv? := some "X", tolerance? := some 1,
                 positions? := some [("In", Val.num 10)] } })],
    states := [("A", {})], transitions := [("A", [])] }

/-- A valve-device governor, for the lost-write scenario. -/
def c10gov : GovState :=
  { init_state := "A", current_state := "A", next_state := "A", status := 0,
    devices := [("v",
      { dtype := DType.valve,
        cfg := { type? := some "Valve", name? := some "v", timeout? := some 5,
                 pv? := some "Y" } })],
    states := [("A", {})], transitions := [("A", [])] }

/-- Governor for the C7 witness: one state with one device target. -/
def c7gov : GovState :=
  { init_state := "S", current_state := "S", next_state := "S", status := 0,
    devices := [("d", dummyDev "d")],
    states := [("S", { targets? := some [("d", { target? := some "p", limits? := some [0, 10] })] })],
    transitions := [("S", [])] }

/-- Declared states of the C3 scenario. -/
def c3states : List (String × StateCfg) := [("A", {}), ("B", {})]

/-- Raw transitions of the C3 scenario: only `A` appears as an origin,
so the declared state `B` never gets the implicit reset edge. -/
def c3raw : List (String × List (String × TransSeq)) := [("A", [("B", [])])]

/-- Raw transitions for the C3 witness: `B` is a non-init origin with a
single declared destination `C`. -/
def c3raw2 : List (String × List (String × TransSeq)) :=
  [("B", [("C", [SeqItem.single "d1"])])]

/-- A device section with a single valid dummy device. -/
def c9devs : List (String × DeviceCfg) :=
  [("d1", { type? := some "Device", name? := some "d1", timeout? := some 5 })]

/-- A configuration whose root lacks the non-mandatory `transitions`
key but passes every earlier validation step. -/
def c9a : RootCfg :=
  { init_state? := some "A", devices? := some c9devs,
    states? := some [("A", {})], transitions? := none }

/-- A configuration with a transition destination that is not a
declared state. -/
def c9b : RootCfg :=
  { init_state? := some "A", devices? := some c9devs,
    states? := some [("A", {})], transitions? := some [("A", [("B", [])])] }

/-- A configuration with two independent errors in different validation
steps: an unknown init state (step 2) and inverted limits (step 5). -/
def c2cfg : RootCfg :=
  { init_state? := some "X", devices? := some c9devs,
    states? := some [("A",
      { targets? := some [("d1", { target? := some "p", limits? := some [2, 1] })] })],
    transitions? := some [] }

/-- A schedule whose abort flag is set from the start. -/
def abortEnv : Env :=
  { statusAt := fun _ => 1, abortAt := fun _ => true }

/-- Start state for the C4 witness: the C1 governor about to run the
move loop of `A → B`. -/
def c4start : ExecS :=
  { g := { c1gov with status := 1 }, tr := [], ts := 0, ta := 0 }

/-! ## Basic association-list lemmas -/

theorem lookupA_insertA_self {α : Type} (l : List (String × α)) (k : String) (v : α) :
    lookupA (insertA l k v) k = some v := by
  induction l with
  | nil => simp [insertA, lookupA]
  | cons hd tl ih =>
    by_cases h : hd.1 == k
    · simp [insertA, lookupA, h]
    · simp only [insertA]
      rw [show (hd.1 == k) = false from by simpa using h]
      simp only [if_false, Bool.false_eq_true]
      simp [lookupA, h, ih]

theorem lookupA_insertA_ne {α : Type} (l : List (String × α)) (k k' : String) (v : α)
    (h : k ≠ k') : lookupA (insertA l k v) k' = lookupA l k' := by
  induction l with
  | nil => simp [insertA, lookupA, h]
  | cons hd tl ih =>
    by_cases hk : hd.1 == k
    · have := beq_iff_eq.mp hk
      simp [insertA, hk, lookupA, this, h]
    · simp only [insertA]
      rw [show (hd.1 == k) = false from by simpa using hk]
      simp only [if_false, Bool.false_eq_true]
      by_cases hk' : hd.1 == k'
      · simp [lookupA, hk']
      · simp [lookupA, hk', ih]

theorem lookupA_isSome_insertA {α : Type} (l : List (String × α)) (k k' : String) (v : α)
    (h : (lookupA l k').isSome) : (lookupA (insertA l k v) k').isSome := by
  by_cases hk : k = k'
  · subst hk; rw [lookupA_insertA_self]; rfl
  · rw [lookupA_insertA_ne l k k' v hk]; exact h

theorem mem_keysA_iff {α : Type} (l : List (String × α)) (n : String) :
    n ∈ keysA l ↔ (lookupA l n).isSome := by
  induction l with
  | nil => simp [keysA, lookupA]
  | cons hd tl ih =>
    simp only [keysA, List.map_cons, List.mem_cons, lookupA]
    by_cases h : hd.1 == n
    · have he := beq_iff_eq.mp h
      simp [he, h]
    · have hne : ¬ n = hd.1 := fun e => (show hd.1 ≠ n by simpa using h) e.symm
      simp only [keysA] at ih
      simp [h, hne, ih]

theorem lookupA_eq_none_forall {α : Type} (l : List (String × α)) (k : String)
    (h : lookupA l k = none) : ∀ p ∈ l, p.1 ≠ k := by
  induction l with
  | nil => intro p hp; cases hp
  | cons hd tl ih =>
    intro p hp
    by_cases hk : hd.1 == k
    · simp [lookupA, hk] at h
    · have h' : lookupA tl k = none := by simpa [lookupA, hk] using h
      rcases List.mem_cons.mp hp with rfl | hp
      · simpa using hk
      · exact ih h' p hp

/-- C8: `status_message` renders, on Fault, exactly the non-empty fault
lists in the order disconn, alarm, !homed, each as `tag(dev,dev,...)`,
space-joined; otherwise `state {current}` when the next state equals the
current one, and `transition {current} to {next}` otherwise. -/
theorem c8_status_message_shape (g : GovState) :
    status_message g =
      if g.status == 3 then
        String.intercalate " "
          ((([("disconn", g.disconnected), ("alarm", g.alarmed),
              ("!homed", g.not_homed)]).filter (fun p => !p.2.isEmpty)).map
            (fun p => p.1 ++ "(" ++ String.intercalate "," p.2 ++ ")"))
      else if g.next_state == g.current_state then "state " ++ g.current_state
      else "transition " ++ g.current_state ++ " to " ++ g.next_state := by
  unfold status_message
  by_cases h3 : g.status == 3
  · simp only [h3, if_true]
    cases g.disconnected <;> cases g.alarmed <;> cases g.not_homed <;>
      simp [List.filter, List.isEmpty, List.foldl, List.map]
  · simp only [h3]
    simp

/-- C7: `set_state_device_limit` builds the new limits pair from the old
one by replacing the selected bound with `value`; when the resulting
lower limit exceeds the upper one it fails with the in-memory limits
unchanged and no commit; otherwise it installs exactly the new pair
(the edited bound equal to `value`, the other bound preserved) and
commits. -/
theorem c7_set_state_device_limit (g : GovState) (state device : String) (limit : Nat)
    (value : Int) (st : StateCfg) (tgts : List (String × TargetCfg)) (tgt : TargetCfg)
    (ls : List Int) (lo0 hi0 : Int)
    (hst : lookupA g.states state = some st)
    (hts : st.targets? = some tgts)
    (htgt : lookupA tgts device = some tgt)
    (hls : tgt.limits? = some ls)
    (h0 : ls.get? 0 = some lo0) (h1 : ls.get? 1 = some hi0) :
    ((if limit == 0 then (value, hi0) else (lo0, value)).1 >
        (if limit == 0 then (value, hi0) else (lo0, value)).2 →
      set_state_device_limit g state device limit value = Except.ok (false, g, [])) ∧
    ((if limit == 0 then (value, hi0) else (lo0, value)).1 ≤
        (if limit == 0 then (value, hi0) else (lo0, value)).2 →
      ∃ st' tgts',
        set_state_device_limit g state device limit value =
          Except.ok (true, { g with states := insertA g.states state st' }, [Ev.commit]) ∧
        lookupA ({ g with states := insertA g.states state st' } : GovState).states state
          = some st' ∧
        st'.targets? = some tgts' ∧
        lookupA tgts' device = some
          { tgt with limits? := some [(if limit == 0 then (value, hi0) else (lo0, value)).1,
                                      (if limit == 0 then (value, hi0) else (lo0, value)).2] }) := by
  unfold set_state_device_limit
  rw [hst]; dsimp only
  rw [hts]; dsimp only
  rw [htgt]; dsimp only
  rw [hls]; dsimp only
  by_cases hl : limit == 0
  · simp only [hl, if_true, h1]
    constructor
    · intro hgt
      rw [if_pos]
      simpa [hl] using hgt
    · intro hle
      rw [if_neg (not_lt.mpr (by simpa [hl] using hle))]
      refine ⟨_, _, rfl, ?_, rfl, ?_⟩
      · simp [lookupA_insertA_self]
      · simp [hl, lookupA_insertA_self]
  · simp only [hl, Bool.false_eq_true, if_false, h0]
    constructor
    · intro hgt
      rw [if_pos]
      simpa [hl] using hgt
    · intro hle
      rw [if_neg (not_lt.mpr (by simpa [hl] using hle))]
      refine ⟨_, _, rfl, ?_, rfl, ?_⟩
      · simp [lookupA_insertA_self]
      · simp [hl, lookupA_insertA_self]

/-- Witness for C7 at a concrete governor: editing the low limit of
state `S`, device `d` to `11` against old limits `[0, 10]` is rejected
with no state change and no commit; editing it to `5` succeeds, commits,
and installs `[5, 10]`. -/
theorem c7_witness :
    set_state_device_limit c7gov "S" "d" 0 11 = Except.ok (false, c7gov, []) ∧
    ∃ st' tgts',
      set_state_device_limit c7gov "S" "d" 0 5 =
        Except.ok (true, { c7gov with states := insertA c7gov.states "S" st' }, [Ev.commit]) ∧
      lookupA ({ c7gov with states := insertA c7gov.states "S" st' } : GovState).states "S"
        = some st' ∧
      st'.targets? = some tgts' ∧
      lookupA tgts' "d" = some
        { target? := some "p", limits? := some [(5 : Int), 10], updateAfter? := none } := by
  constructor
  · exact (c7_set_state_device_limit c7gov "S" "d" 0 11
      { targets? := some [("d", { target? := some "p", limits? := some [0, 10] })] }
      [("d", { target? := some "p", limits? := some [0, 10] })]
      { target? := some "p", limits? := some [0, 10] } [0, 10] 0 10
      rfl rfl rfl rfl rfl rfl).1 (by decide)
  · exact (c7_set_state_device_limit c7gov "S" "d" 0 5
      { targets? := some [("d", { target? := some "p", limits? := some [0, 10] })] }
      [("d", { target? := some "p", limits? := some [0, 10] })]
      { target? := some "p", limits? := some [0, 10] } [0, 10] 0 10
      rfl rfl rfl rfl rfl rfl).2 (by decide)

theorem positions_congr (d d' : DeviceState) (hdt : d.dtype = d'.dtype)
    (hcfg : d.cfg = d'.cfg) : d.positions = d'.positions := by
  unfold DeviceState.positions
  rw [hdt, hcfg]

theorem positions_ne_valve (d : DeviceState) (ps : List (String × Val))
    (hp : d.cfg.positions? = some ps) (hdt : d.dtype ≠ DType.valve) :
    DeviceState.positions d = ps := by
  unfold DeviceState.positions
  cases hdd : d.dtype with
  | valve => exact absurd hdd hdt
  | device =>
    rw [hp]
    exact rfl
  | motor =>
    rw [hp]
    exact rfl

theorem positions_write_ne_valve (d : DeviceState) (position : String) (v : Val)
    (ps : List (String × Val)) (hp : d.cfg.positions? = some ps)
    (hdt : d.dtype ≠ DType.valve) :
    DeviceState.positions
      { d with cfg := { d.cfg with positions? := some (insertA ps position v) } }
      = insertA ps position v := by
  unfold DeviceState.positions
  rw [show ({ d with cfg := { d.cfg with positions? := some (insertA ps position v) } }
    : DeviceState).dtype = d.dtype from rfl]
  cases hdd : d.dtype with
  | valve => exact absurd hdd hdt
  | device => rfl
  | motor => rfl

theorem numAt_write (d : DeviceState) (position : String) (k : Int) (tn : String)
    (ps : List (String × Val)) (hp : d.cfg.positions? = some ps)
    (hdt : d.dtype ≠ DType.valve) (hnum : numAt d tn) :
    numAt { d with cfg :=
      { d.cfg with positions? := some (insertA ps position (Val.num k)) } } tn := by
  unfold numAt
  rw [positions_write_ne_valve d position (Val.num k) ps hp hdt]
  by_cases htp : position = tn
  · subst htp
    refine ⟨k, ?_⟩
    rw [lookupA_insertA_self]
    exact rfl
  · obtain ⟨m, hm⟩ := hnum
    rw [positions_ne_valve d ps hp hdt] at hm
    exact ⟨m, by rw [lookupA_insertA_ne _ _ _ _ htp]; exact hm⟩

theorem set_device_position_some_frame (g : GovState) (device position : String) (v : Val)
    (d : DeviceState) (h : lookupA g.devices device = some d) :
    ∃ g', set_device_position g device position (some v) =
        Except.ok (true, g', [Ev.setPos device position (some v), Ev.commit]) ∧
      g'.states = g.states ∧ g'.transitions = g.transitions ∧
      g'.current_state = g.current_state ∧ g'.next_state = g.next_state ∧
      g'.init_state = g.init_state ∧ g'.status = g.status ∧
      (∀ n, (lookupA g'.devices n).map devView = (lookupA g.devices n).map devView) ∧
      (∀ k, v = Val.num k → ∀ n dOld dNew, lookupA g.devices n = some dOld →
        lookupA g'.devices n = some dNew → ∀ tn, numAt dOld tn → numAt dNew tn) := by
  unfold set_device_position
  rw [h]; dsimp only
  refine ⟨_, rfl, rfl, rfl, rfl, rfl, rfl, rfl, ?_, ?_⟩
  · intro n
    by_cases hn : device = n
    · subst hn
      rw [lookupA_insertA_self, h]
      cases hd : d.dtype <;> cases hp : d.cfg.positions? <;>
        simp [devView, hd, hp]
    · rw [lookupA_insertA_ne _ _ _ _ hn]
  · intro k hk n dOld dNew hOld hNew tn hnum
    subst hk
    by_cases hn : device = n
    · subst hn
      rw [lookupA_insertA_self] at hNew
      rw [h] at hOld
      rw [← Option.some.inj hOld] at hnum
      clear h hOld
      obtain ⟨dt, dcfg, dtgt, dlv⟩ := d
      obtain ⟨ty, nm, tmo, pv, tol, pos⟩ := dcfg
      cases dt with
      | valve =>
        have hdN : (⟨DType.valve, ⟨ty, nm, tmo, pv, tol, pos⟩, dtgt, dlv⟩ : DeviceState)
            = dNew := Option.some.inj hNew
        rw [← hdN]
        exact hnum
      | device =>
        cases pos with
        | none =>
          have hdN : (⟨DType.device, ⟨ty, nm, tmo, pv, tol, none⟩, dtgt, dlv⟩ : DeviceState)
              = dNew := Option.some.inj hNew
          rw [← hdN]
          exact hnum
        | some ps =>
          have hdN : (⟨DType.device, ⟨ty, nm, tmo, pv, tol,
              some (insertA ps position (Val.num k))⟩, dtgt, dlv⟩ : DeviceState) = dNew :=
            Option.some.inj hNew
          rw [← hdN]
          exact numAt_write ⟨DType.device, ⟨ty, nm, tmo, pv, tol, some ps⟩, dtgt, dlv⟩
            position k tn ps rfl (fun hc => DType.noConfusion hc) hnum
      | motor =>
        cases pos with
        | none =>
          have hdN : (⟨DType.motor, ⟨ty, nm, tmo, pv, tol, none⟩, dtgt, dlv⟩ : DeviceState)
              = dNew := Option.some.inj hNew
          rw [← hdN]
          exact hnum
        | some ps =>
          have hdN : (⟨DType.motor, ⟨ty, nm, tmo, pv, tol,
              some (insertA ps position (Val.num k))⟩, dtgt, dlv⟩ : DeviceState) = dNew :=
            Option.some.inj hNew
          rw [← hdN]
          exact numAt_write ⟨DType.motor, ⟨ty, nm, tmo, pv, tol, some ps⟩, dtgt, dlv⟩
            position k tn ps rfl (fun hc => DType.noConfusion hc) hnum
    · rw [lookupA_insertA_ne _ _ _ _ hn, hOld] at hNew
      rw [← Option.some.inj hNew]
      exact hnum

/-- C5 (amended): `set_device_position` returns success even when the
value is missing (`None`), performing no write and no commit in that
case; when a value is present (for an existing device) it performs the
write-through and commits, again returning success. -/
theorem c5_set_device_position_none_succeeds :
    (∀ (g : GovState) (device position : String),
      set_device_position g device position none = Except.ok (true, g, [])) ∧
    (∀ (g : GovState) (device position : String) (v : Val) (d : DeviceState),
      lookupA g.devices device = some d →
      ∃ g', set_device_position g device position (some v) =
        Except.ok (true, g', [Ev.setPos device position (some v), Ev.commit])) := by
  constructor
  · intro g device position
    rfl
  · intro g device position v d h
    rcases set_device_position_some_frame g device position v d h with ⟨g', hg', -⟩
    exact ⟨g', hg'⟩

/-- Counterexample to C5 as stated: on the concrete governor `c5gov`,
`set_device_position` with a missing value returns success (`True`), not
failure — and it neither writes nor commits. -/
theorem c5_counterexample :
    resultFlag (set_device_position c5gov "m" "In" none) = some true ∧
    resultFlag (set_device_position c5gov "m" "In" none) ≠ some false ∧
    set_device_position c5gov "m" "In" none = Except.ok (true, c5gov, []) := by
  refine ⟨rfl, ?_, rfl⟩
  intro h
  have h' : (some true : Option Bool) = some false := by
    rw [← h]; rfl
  simp at h'

/-- Witness for C5: the value-present branch at the concrete governor
`c5gov` succeeds with a write-through and a commit. -/
theorem c5_witness :
    set_device_position c5gov "q" "In" none = Except.ok (true, c5gov, []) ∧
    ∃ g', set_device_position c5gov "m" "In" (some (Val.num 7)) =
      Except.ok (true, g', [Ev.setPos "m" "In" (some (Val.num 7)), Ev.commit]) :=
  ⟨c5_set_device_position_none_succeeds.1 c5gov "q" "In",
   c5_set_device_position_none_succeeds.2 c5gov "m" "In" (Val.num 7) _ rfl⟩

/-- C10: every `Valve` reports the fixed positions mapping
`{Open: 1, Closed: 0}` (a fresh dictionary on each access, independent
of any `positions` declared in its raw config), so
`set_device_position` on a valve returns success and commits while the
device — and hence its positions mapping — is left completely
unchanged: the written value is silently lost. -/
theorem c10_valve_position_write_lost :
    (∀ dv : DeviceState, dv.dtype = DType.valve →
      dv.positions = [("Open", Val.num 1), ("Closed", Val.num 0)]) ∧
    (∀ (g : GovState) (device position : String) (v : Val) (d : DeviceState),
      lookupA g.devices device = some d → d.dtype = DType.valve →
      ∃ g', set_device_position g device position (some v) =
              Except.ok (true, g', [Ev.setPos device position (some v), Ev.commit]) ∧
        lookupA g'.devices device = some d ∧
        d.positions = [("Open", Val.num 1), ("Closed", Val.num 0)]) := by
  constructor
  · intro dv hv
    unfold DeviceState.positions
    rw [hv]
  · intro g device position v d h hv
    refine ⟨{ g with devices := insertA g.devices device d }, ?_, ?_, ?_⟩
    · unfold set_device_position
      rw [h]; dsimp only
      rw [hv]
    · exact lookupA_insertA_self _ _ _
    · unfold DeviceState.positions
      rw [hv]

/-- Witness for C10: writing position `In := 7` on the concrete valve
governor succeeds and commits, yet the valve's positions mapping stays
`{Open: 1, Closed: 0}`. -/
theorem c10_witness :
    ∃ g', set_device_position c10gov "v" "In" (some (Val.num 7)) =
            Except.ok (true, g', [Ev.setPos "v" "In" (some (Val.num 7)), Ev.commit]) ∧
      lookupA g'.devices "v" = some
        { dtype := DType.valve,
          cfg := { type? := some "Valve", name? := some "v", timeout? := some 5,
                   pv? := some "Y" },
          target := none, liveVal := none } ∧
      ({ dtype := DType.valve,
         cfg := { type? := some "Valve", name? := some "v", timeout? := some 5,
                  pv? := some "Y" },
         target := none, liveVal := none } : DeviceState).positions =
        [("Open", Val.num 1), ("Closed", Val.num 0)] :=
  c10_valve_position_write_lost.2 c10gov "v" "In" (Val.num 7) _ rfl rfl

theorem lookupA_parseTransitions (init : String)
    (raw : List (String × List (String × TransSeq))) (origin : String)
    (tmap : List (String × TransSeq)) (h : lookupA raw origin = some tmap) :
    lookupA (parseTransitions init raw) origin =
      some (tmap.foldl (fun m ds => insertA m ds.1 ds.2)
        (if origin != init then [(init, ([] : TransSeq))] else [])) := by
  induction raw with
  | nil => simp [lookupA] at h
  | cons hd tl ih =>
    by_cases hk : hd.1 == origin
    · have he := beq_iff_eq.mp hk
      have hv : hd.2 = tmap := by
        have := h
        simp [lookupA, hk] at this
        exact this
      subst hv
      simp [parseTransitions, lookupA, hk, he]
    · have h' : lookupA tl origin = some tmap := by
        have := h
        simpa [lookupA, hk] using this
      have ihr := ih h'
      simpa [parseTransitions, lookupA, hk] using ihr

theorem lookupA_foldl_insertA_isSome (l : List (String × TransSeq))
    (base : List (String × TransSeq)) (k : String)
    (h : (lookupA base k).isSome) :
    (lookupA (l.foldl (fun m ds => insertA m ds.1 ds.2) base) k).isSome := by
  induction l generalizing base with
  | nil => exact h
  | cons hd tl ih =>
    simp only [List.foldl_cons]
    exact ih _ (lookupA_isSome_insertA _ hd.1 k hd.2 h)

theorem lookupA_foldl_insertA_of_not_mem (l : List (String × TransSeq))
    (base : List (String × TransSeq)) (k : String)
    (h : ∀ p ∈ l, p.1 ≠ k) :
    lookupA (l.foldl (fun m ds => insertA m ds.1 ds.2) base) k = lookupA base k := by
  induction l generalizing base with
  | nil => rfl
  | cons hd tl ih =>
    simp only [List.foldl_cons]
    rw [ih _ (fun p hp => h p (List.mem_cons_of_mem _ hp))]
    exact lookupA_insertA_ne _ _ _ _ (h hd (List.mem_cons_self _ _))

/-- C3 (amended): for every origin that appears as a key of the config's
`transitions` mapping and differs from the init state, the parsed
transitions contain an edge from that origin to the init state — with an
empty sequence whenever the config does not itself declare such an edge
(an explicit edge overrides the implicit one) — and `reachable_states`
of that origin succeeds and contains the init state. -/
theorem c3_implicit_reset_edge (init : String)
    (raw : List (String × List (String × TransSeq))) (origin : String)
    (tmap : List (String × TransSeq))
    (h : lookupA raw origin = some tmap) (hne : origin ≠ init) :
    ∃ m, lookupA (parseTransitions init raw) origin = some m ∧
      (lookupA m init).isSome = true ∧
      (lookupA tmap init = none → lookupA m init = some []) ∧
      ∃ r, reachable_states (parseTransitions init raw) origin = Except.ok r ∧ init ∈ r := by
  have hbne : (origin != init) = true := bne_iff_ne.mpr hne
  have hp := lookupA_parseTransitions init raw origin tmap h
  rw [hbne, if_pos rfl] at hp
  refine ⟨_, hp, ?_, ?_, ?_⟩
  · exact lookupA_foldl_insertA_isSome tmap _ init (by simp [lookupA])
  · intro hnone
    rw [lookupA_foldl_insertA_of_not_mem _ _ _ (lookupA_eq_none_forall tmap init hnone)]
    simp [lookupA]
  · refine ⟨origin :: keysA (List.foldl (fun m ds => insertA m ds.1 ds.2) [(init, [])] tmap),
      ?_, ?_⟩
    · unfold reachable_states
      rw [hp]
    · exact List.mem_cons_of_mem _
        ((mem_keysA_iff _ init).mpr
          (lookupA_foldl_insertA_isSome tmap _ init (by simp [lookupA])))

/-- Counterexample to C3 as stated: `B` is a declared, non-init state,
but because it never appears as an origin key in the config's
`transitions` mapping, no implicit transition to the init state is
synthesized for it and `reachable_states("B")` raises `KeyError` instead
of being defined. -/
theorem c3_counterexample :
    (lookupA c3states "B").isSome = true ∧ ("B" : String) ≠ "A" ∧
    lookupA (parseTransitions "A" c3raw) "B" = none ∧
    reachable_states (parseTransitions "A" c3raw) "B" = Except.error (Exc.keyError "B") :=
  ⟨rfl, by decide, rfl, rfl⟩

/-- Witness for C3 (amended) at the concrete transitions `c3raw2`. -/
theorem c3_witness :
    ∃ m, lookupA (parseTransitions "A" c3raw2) "B" = some m ∧
      (lookupA m "A").isSome = true ∧
      (lookupA [("C", [SeqItem.single "d1"])] "A" = none → lookupA m "A" = some []) ∧
      ∃ r, reachable_states (parseTransitions "A" c3raw2) "B" = Except.ok r ∧ "A" ∈ r :=
  c3_implicit_reset_edge "A" c3raw2 "B" [("C", [SeqItem.single "d1"])] rfl (by decide)

/-- C9: `check_config` is not total. On `c9a` — a configuration that
passes every earlier step but whose root lacks the non-mandatory
`transitions` key — `_check_transitions` raises `KeyError('transitions')`
instead of returning `False`; on `c9b` — whose transition `A → B` names
an undeclared destination — looking up the destination's targets raises
`KeyError('B')` even though the invalid destination had already been
logged. -/
theorem c9_check_config_raises :
    c9a.transitions? = none ∧
    check_root_mandatory c9a = (true, []) ∧
    check_config c9a = Except.error (Exc.keyError "transitions") ∧
    check_config c9b = Except.error (Exc.keyError "B") :=
  ⟨rfl, rfl, rfl, rfl⟩

theorem runChecks_of_specRun (cs : List CheckRes) (b : Bool) (full : List CfgErr)
    (h : specRun cs = Except.ok (b, full)) :
    ∃ l tail, runChecks cs = Except.ok (b, l) ∧ full = l ++ tail := by
  induction cs generalizing b full with
  | nil =>
    simp only [specRun, Except.ok.injEq, Prod.mk.injEq] at h
    exact ⟨[], [], by simp [runChecks, h.1], by simp [h.2]⟩
  | cons c rest ih =>
    match c with
    | Except.error e => simp [specRun, combineRes] at h
    | Except.ok (bc, logc) =>
      match hr : specRun rest with
      | Except.error e =>
        rw [specRun, hr] at h
        simp [combineRes] at h
      | Except.ok (b', log') =>
        rw [specRun, hr] at h
        simp only [combineRes, Except.ok.injEq, Prod.mk.injEq] at h
        rcases ih b' log' hr with ⟨l, tail, hrun, hsplit⟩
        cases bc with
        | true =>
          refine ⟨logc ++ l, tail, ?_, ?_⟩
          · rw [runChecks, hrun]
            simp [← h.1]
          · rw [← h.2, hsplit, List.append_assoc]
        | false =>
          refine ⟨logc, log', ?_, ?_⟩
          · rw [runChecks]
            simp [← h.1]
          · rw [← h.2]

/-- C2 (amended): `check_config` runs the validation steps in order and
stops at the first failing step, so a failure in any step makes the
overall result `False` (the flag agrees with running all steps), but the
errors it reports are only those of the steps up to and including the
first failing one — a prefix of all the configuration's errors; errors
of later steps are not reported. -/
theorem c2_check_config_stops_at_first_failure (cfg : RootCfg) (b : Bool)
    (full : List CfgErr) (h : spec_check_config cfg = Except.ok (b, full)) :
    ∃ l tail, check_config cfg = Except.ok (b, l) ∧ full = l ++ tail :=
  runChecks_of_specRun (checksOf cfg) b full h

/-- Counterexample to C2 as stated: `c2cfg` has an invalid init state
(step 2) and inverted limits (step 5); `check_config` stops after step 2
and never reports the limits error, which running all checks would
report. -/
theorem c2_counterexample :
    check_config c2cfg = Except.ok (false, [CfgErr.invalidInitState "X"]) ∧
    spec_check_config c2cfg =
      Except.ok (false, [CfgErr.invalidInitState "X", CfgErr.badLimits "A" "d1"]) ∧
    CfgErr.badLimits "A" "d1" ∉ [CfgErr.invalidInitState "X"] :=
  ⟨rfl, rfl, by decide⟩

/-- Witness for C2 (amended) at the concrete configuration `c2cfg`. -/
theorem c2_witness :
    ∃ l tail, check_config c2cfg = Except.ok (false, l) ∧
      [CfgErr.invalidInitState "X", CfgErr.badLimits "A" "d1"] = l ++ tail :=
  c2_check_config_stops_at_first_failure c2cfg false
    [CfgErr.invalidInitState "X", CfgErr.badLimits "A" "d1"] rfl

theorem do_transition_inner_same_state (env : Env) (s : ExecS) (dest : String)
    (h : s.g.current_state = dest) :
    (do_transition_inner env s dest).1.tr = s.tr ∧
    (do_transition_inner env s dest).1.g.current_state = s.g.current_state := by
  unfold do_transition_inner
  dsimp only
  split
  · exact ⟨rfl, rfl⟩
  · split
    · exact ⟨rfl, rfl⟩
    · split
      · exact ⟨rfl, rfl⟩
      · split
        · exact ⟨rfl, rfl⟩
        · split
          · exact ⟨rfl, rfl⟩
          · split
            · exact ⟨rfl, rfl⟩
            · rename_i hne
              exact absurd (beq_iff_eq.mpr h) (by simpa using hne)

/-- C6: `do_transition(dest)` with `dest` equal to the current state is a
no-op — no device move is issued, no config commit happens, and the
current state is unchanged — and consequently, whenever a first
`do_transition(dest)` ends with `current_state == dest`, a second call
observes this and returns with no moves, no commits and the state still
`dest`. -/
theorem c6_do_transition_same_state_noop :
    (∀ (env : Env) (g : GovState) (dest : String), g.current_state = dest →
      movesOf (do_transition env g dest).2 = [] ∧
      commitsOf (do_transition env g dest).2 = [] ∧
      (do_transition env g dest).1.current_state = dest) ∧
    (∀ (env1 env2 : Env) (g : GovState) (dest : String),
      (do_transition env1 g dest).1.current_state = dest →
      movesOf (do_transition env2 (do_transition env1 g dest).1 dest).2 = [] ∧
      commitsOf (do_transition env2 (do_transition env1 g dest).1 dest).2 = [] ∧
      (do_transition env2 (do_transition env1 g dest).1 dest).1.current_state = dest) := by
  have main : ∀ (env : Env) (g : GovState) (dest : String), g.current_state = dest →
      movesOf (do_transition env g dest).2 = [] ∧
      commitsOf (do_transition env g dest).2 = [] ∧
      (do_transition env g dest).1.current_state = dest := by
    intro env g dest h
    have hinner := do_transition_inner_same_state env
      { g := { g with status := 1 }, tr := [], ts := 0, ta := 0 } dest h
    unfold do_transition
    dsimp only
    refine ⟨?_, ?_, ?_⟩
    · rw [hinner.1]; rfl
    · rw [hinner.1]; rfl
    · split <;> simpa using hinner.2.trans h
  exact ⟨main, fun env1 env2 g dest h => main env2 _ dest h⟩

/-- Witness for C6: on the concrete governor `c1gov`, requesting a
transition to the current state `A` issues no moves, commits nothing and
leaves the state at `A`. -/
theorem c6_witness :
    movesOf (do_transition quietEnv c1gov "A").2 = [] ∧
    commitsOf (do_transition quietEnv c1gov "A").2 = [] ∧
    (do_transition quietEnv c1gov "A").1.current_state = "A" :=
  c6_do_transition_same_state_noop.1 quietEnv c1gov "A" rfl

theorem movePhaseA_all_abort (env : Env) (devs : List (String × TargetCfg)) (s : ExecS)
    (moved : List String) (hab : ∀ k, s.ta ≤ k → env.abortAt k = true) :
    ∃ m', movePhaseA env devs s moved = (({ s with ta := s.ta + devs.length }, m'), none) := by
  induction devs generalizing s moved with
  | nil => exact ⟨moved, by simp [movePhaseA]⟩
  | cons hd tl ih =>
    obtain ⟨n, tgt⟩ := hd
    rw [movePhaseA]
    dsimp only
    rw [hab s.ta le_rfl, if_pos rfl]
    obtain ⟨m', hm⟩ := ih { s with ta := s.ta + 1 }
      (if moved.contains n then moved else moved ++ [n])
      (fun k hk => hab k (le_trans (Nat.le_succ _) hk))
    rw [hm]
    refine ⟨m', ?_⟩
    have harith : s.ta + 1 + tl.length = s.ta + (tl.length + 1) := by omega
    simp [harith]

theorem movePhaseB_all_abort (env : Env) (devs : List (String × TargetCfg)) (s : ExecS)
    (hab : ∀ k, s.ta ≤ k → env.abortAt k = true) :
    movePhaseB env devs s = ({ s with ta := s.ta + 2 * devs.length }, none) := by
  induction devs generalizing s with
  | nil => simp [movePhaseB]
  | cons hd tl ih =>
    obtain ⟨n, tgt⟩ := hd
    rw [movePhaseB]
    dsimp only
    rw [hab s.ta le_rfl, if_pos rfl, hab (s.ta + 1) (Nat.le_succ _), if_pos rfl]
    rw [ih { s with ta := s.ta + 1 + 1 }
      (fun k hk => hab k (le_trans (show s.ta ≤ s.ta + 1 + 1 by omega) hk))]
    have harith : s.ta + 1 + 1 + 2 * tl.length = s.ta + 2 * (tl.length + 1) := by omega
    simp [harith]

theorem moveLoop_all_abort (env : Env) (targets : List (String × TargetCfg))
    (seq : List SeqItem) (s : ExecS) (moved : List String)
    (hab : ∀ k, s.ta ≤ k → env.abortAt k = true) :
    (moveLoop env targets seq s moved).1.1.tr = s.tr := by
  induction seq generalizing s moved with
  | nil => rfl
  | cons item rest ih =>
    rw [moveLoop.eq_def]
    dsimp only
    by_cases hf : (env.statusAt s.ts == 3) = true
    · rw [if_pos hf]
    · rw [if_neg hf]
      cases hres : resolveStep ({ s with ts := s.ts + 1 } : ExecS).g targets
          (match item with | SeqItem.single d => [d] | SeqItem.group ds => ds) with
      | error e => rfl
      | ok devs =>
        dsimp only
        obtain ⟨m', hA⟩ := movePhaseA_all_abort env devs { s with ts := s.ts + 1 } moved hab
        rw [hA]
        dsimp only
        rw [movePhaseB_all_abort env devs _
          (fun k hk => hab k
            (le_trans (show s.ta ≤ s.ta + devs.length from Nat.le_add_right _ _) hk))]
        dsimp only
        exact ih _ m' (fun k hk => hab k
          (le_trans (show s.ta ≤ s.ta + devs.length + 2 * devs.length by omega) hk))

/-- C4: in the move phase, if at the start of a step the status reads
Fault or the abort flag reads set (the supervisor only ever sets the
flag during a transition, so its reads are monotone), then no device of
that step or of any later step is issued a move: the move events of the
trace are exactly those already emitted. -/
theorem c4_abort_or_fault_blocks_moves (env : Env) (targets : List (String × TargetCfg))
    (seq : List SeqItem) (s : ExecS) (moved : List String)
    (hmono : ∀ i j, i ≤ j → env.abortAt i = true → env.abortAt j = true)
    (h : env.statusAt s.ts = 3 ∨ env.abortAt s.ta = true) :
    movesOf (moveLoop env targets seq s moved).1.1.tr = movesOf s.tr := by
  rcases h with hf | ha
  · cases seq with
    | nil => rfl
    | cons item rest =>
      rw [moveLoop.eq_def]
      dsimp only
      rw [if_pos (by simp [hf])]
  · rw [moveLoop_all_abort env targets seq s moved (fun k hk => hmono s.ta k hk ha)]

/-- Witness for C4: with the abort flag set from the start, the move
loop of the concrete `A → B` sequence issues no move at all. -/
theorem c4_witness :
    movesOf (moveLoop abortEnv c1destTargets [SeqItem.single "d1"] c4start []).1.1.tr =
      movesOf c4start.tr :=
  c4_abort_or_fault_blocks_moves abortEnv c1destTargets [SeqItem.single "d1"] c4start []
    (fun _ _ _ _ => rfl) (Or.inr rfl)

/-- Counterexample to C1 as stated: on `c1gov`, the transition `A → B`
completes successfully (no exception, not aborted, not faulted, ending
in state `B`), the destination's targets mention `d2`, yet `d2` — which
the sequence does not move — ends with `current_target = none` rather
than `B`'s target for it. -/
theorem c1_counterexample :
    lookupA c1gov.states "B" = some ({ targets? := some c1destTargets } : StateCfg) ∧
    (lookupA c1destTargets "d2").isSome = true ∧
    (do_transition_inner quietEnv
      { g := { c1gov with status := 1 }, tr := [], ts := 0, ta := 0 } "B").2 = none ∧
    (do_transition quietEnv c1gov "B").1.current_state = "B" ∧
    (lookupA (do_transition quietEnv c1gov "B").1.devices "d2").map (fun d => d.target)
      = some none ∧
    (lookupA (do_transition quietEnv c1gov "B").1.devices "d1").map (fun d => d.target)
      = some (some (mkTarget "p")) :=
  ⟨rfl, rfl, rfl, rfl, rfl, rfl⟩

theorem exists_of_map_devView_eq (o : Option DeviceState) (d : DeviceState)
    (h : o.map devView = some (devView d)) :
    ∃ d', o = some d' ∧ devView d' = devView d := by
  cases o with
  | none => simp at h
  | some x => exact ⟨x, rfl, by simpa using h⟩

theorem dtype_eq_of_devView (d d' : DeviceState) (h : devView d = devView d') :
    d.dtype = d'.dtype := congrArg Prod.fst h

theorem tol_eq_of_devView (d d' : DeviceState) (h : devView d = devView d') :
    d.cfg.tolerance? = d'.cfg.tolerance? :=
  congrArg (fun p => p.2.2.2) h

theorem targetOKFor_transfer (d d' : DeviceState) (t : TargetCfg)
    (hdt : d.dtype = d'.dtype) (htol : d.cfg.tolerance? = d'.cfg.tolerance?)
    (hnum : ∀ tn, numAt d tn → numAt d' tn) (h : targetOKFor d t) : targetOKFor d' t := by
  obtain ⟨h1, h2, h3, h4⟩ := h
  refine ⟨h1, ?_, ?_, ?_⟩
  · intro hne
    exact h2 (by rw [hdt]; exact hne)
  · intro hv
    exact h3 (by rw [hdt]; exact hv)
  · intro hm
    obtain ⟨ht1, ht2⟩ := h4 (by rw [hdt]; exact hm)
    exact ⟨by rw [← htol]; exact ht1, fun tn htn => hnum tn (ht2 tn htn)⟩

theorem targetOKFor_congr (d d' : DeviceState) (t : TargetCfg)
    (hdt : d.dtype = d'.dtype) (hcfg : d.cfg = d'.cfg) (h : targetOKFor d t) :
    targetOKFor d' t := by
  refine targetOKFor_transfer d d' t hdt (by rw [hcfg]) ?_ h
  intro tn hn
  obtain ⟨k, hk⟩ := hn
  exact ⟨k, by rw [← positions_congr d d' hdt hcfg]; exact hk⟩

theorem valE_num_of_transfer (d d' : DeviceState) (h : devView d = devView d')
    (hnum : ∀ tn, numAt d tn → numAt d' tn)
    (hv : ∃ v, d.valE = Except.ok v ∧ (v = none ∨ ∃ k, v = some (Val.num k))) :
    ∃ v, d'.valE = Except.ok v ∧ (v = none ∨ ∃ k, v = some (Val.num k)) := by
  obtain ⟨dt, dcfg, tgt, lv⟩ := d
  obtain ⟨dt', dcfg', tgt', lv'⟩ := d'
  simp only [devView, Prod.mk.injEq] at h
  obtain ⟨h1, h2, h3, h4⟩ := h
  subst h1
  subst h2
  subst h3
  cases dt with
  | device =>
    cases tgt with
    | none => exact ⟨none, rfl, Or.inl rfl⟩
    | some t =>
      cases htn : t.target? with
      | none =>
        obtain ⟨v, hveq, -⟩ := hv
        simp [DeviceState.valE, htn] at hveq
      | some tn =>
        obtain ⟨v, hveq, hnumv⟩ := hv
        have hC : DeviceState.valE ⟨DType.device, dcfg, some t, lv⟩
            = Except.ok (some ((lookupA (DeviceState.positions
                ⟨DType.device, dcfg, some t, lv⟩) tn).getD (Val.str tn))) := by
          simp [DeviceState.valE, htn]
        rw [hC] at hveq
        have hvv := (Except.ok.inj hveq).symm
        rcases hnumv with rfl | ⟨k, hk⟩
        · exact Option.noConfusion hvv
        · rw [hk] at hvv
          have hkk := (Option.some.inj hvv).symm
          obtain ⟨m, hm⟩ := hnum tn ⟨k, hkk⟩
          refine ⟨some (Val.num m), ?_, Or.inr ⟨m, rfl⟩⟩
          have hC2 : DeviceState.valE ⟨DType.device, dcfg', some t, lv⟩
              = Except.ok (some ((lookupA (DeviceState.positions
                  ⟨DType.device, dcfg', some t, lv⟩) tn).getD (Val.str tn))) := by
            simp [DeviceState.valE, htn]
          rw [hC2, hm]
  | motor => exact hv
  | valve => exact hv

theorem lookupA_map_pair {α β : Type} (f : String → α → β) (l : List (String × α))
    (k : String) :
    lookupA (l.map (fun p => (p.1, f p.1 p.2))) k = (lookupA l k).map (f k) := by
  induction l with
  | nil => rfl
  | cons hd tl ih =>
    obtain ⟨a, b⟩ := hd
    by_cases hk : a == k
    · have he := beq_iff_eq.mp hk
      subst he
      simp [lookupA]
    · simp only [List.map_cons, lookupA, hk, Bool.false_eq_true, if_false]
      exact ih

theorem cleanup_fun_eq (moved : List String) :
    (fun nd : String × DeviceState =>
      if moved.contains nd.1 then nd else (nd.1, { nd.2 with target := none })) =
    (fun nd : String × DeviceState =>
      (nd.1, if moved.contains nd.1 then nd.2 else { nd.2 with target := none })) := by
  funext nd
  by_cases h : moved.contains nd.1 = true
  · rw [if_pos h, if_pos h]
  · rw [if_neg h, if_neg h]

theorem lookupA_cleanup (l : List (String × DeviceState)) (moved : List String) (n : String) :
    lookupA (l.map (fun nd => if moved.contains nd.1 then nd
                              else (nd.1, { nd.2 with target := none }))) n =
      (lookupA l n).map
        (fun d => if moved.contains n then d else { d with target := none }) := by
  rw [cleanup_fun_eq]
  exact lookupA_map_pair
    (fun k d => if moved.contains k then d else { d with target := none }) l n

theorem itemNames_reduce (item : SeqItem) :
    (match item with | SeqItem.single d => [d] | SeqItem.group ds => ds) = itemNames item := by
  cases item <;> rfl

theorem updateAfterLoop_quiet (l : List (String × TargetCfg)) :
    ∀ (g : GovState) (tr : List Ev),
    (∀ p ∈ l, p.2.updateAfter?.getD false = true →
      p.2.target?.isSome = true ∧
      ∃ d0, lookupA g.devices p.1 = some d0 ∧
        ∃ v, d0.valE = Except.ok v ∧ (v = none ∨ ∃ k, v = some (Val.num k))) →
    ∃ g' tr', updateAfterLoop g tr l = ((g', tr'), none) ∧
      g'.states = g.states ∧ g'.transitions = g.transitions ∧
      g'.current_state = g.current_state ∧ g'.next_state = g.next_state ∧
      g'.init_state = g.init_state ∧ g'.status = g.status ∧
      (∀ n, (lookupA g'.devices n).map devView = (lookupA g.devices n).map devView) ∧
      (∀ n dOld dNew, lookupA g.devices n = some dOld → lookupA g'.devices n = some dNew →
        ∀ tn, numAt dOld tn → numAt dNew tn) := by
  induction l with
  | nil =>
    intro g tr _
    refine ⟨g, tr, rfl, rfl, rfl, rfl, rfl, rfl, rfl, fun n => rfl, ?_⟩
    intro n dOld dNew hOld hNew tn hnum
    rw [hOld] at hNew
    rw [← Option.some.inj hNew]
    exact hnum
  | cons hd tl ih =>
    intro g tr h
    obtain ⟨dev, tgt⟩ := hd
    rw [updateAfterLoop.eq_def]
    dsimp only
    by_cases hua : tgt.updateAfter?.getD false = true
    · rw [if_pos hua]
      obtain ⟨hts, d0, hd0, hv0⟩ := h (dev, tgt) (List.mem_cons_self _ _) hua
      obtain ⟨tn, htn⟩ := Option.isSome_iff_exists.mp hts
      rw [htn]
      dsimp only
      rw [hd0]
      dsimp only
      obtain ⟨v, hv, hvnum⟩ := hv0
      rw [hv]
      dsimp only
      cases v with
      | none =>
        have hset : set_device_position g dev tn none = Except.ok (true, g, []) := rfl
        rw [hset]
        dsimp only
        exact ih g (tr ++ []) (fun p hp => h p (List.mem_cons_of_mem _ hp))
      | some v0 =>
        have hk0 : ∃ k, v0 = Val.num k := by
          rcases hvnum with hc | ⟨k, hk⟩
          · exact Option.noConfusion hc
          · exact ⟨k, Option.some.inj hk⟩
        obtain ⟨k, hkv⟩ := hk0
        obtain ⟨g1, hset, hst, htrn, hcur, hnext, hinit, hstat, hdevs, hnum1⟩ :=
          set_device_position_some_frame g dev tn v0 d0 hd0
        rw [hset]
        dsimp only
        have hnum1n : ∀ n dOld dNew, lookupA g.devices n = some dOld →
            lookupA g1.devices n = some dNew → ∀ tn, numAt dOld tn → numAt dNew tn :=
          hnum1 k hkv
        have htrans : ∀ p ∈ tl, p.2.updateAfter?.getD false = true →
            p.2.target?.isSome = true ∧
            ∃ d1, lookupA g1.devices p.1 = some d1 ∧
              ∃ w, d1.valE = Except.ok w ∧ (w = none ∨ ∃ m, w = some (Val.num m)) := by
          intro p hp hu
          obtain ⟨h1, dp, hdp, hvp⟩ := h p (List.mem_cons_of_mem _ hp) hu
          have hview := hdevs p.1
          rw [hdp] at hview
          obtain ⟨dp', hdp', hvw⟩ := exists_of_map_devView_eq _ _ hview
          refine ⟨h1, dp', hdp', ?_⟩
          exact valE_num_of_transfer dp dp' hvw.symm
            (fun tn2 hn2 => hnum1n p.1 dp dp' hdp hdp' tn2 hn2) hvp
        obtain ⟨g', tr', heq, hst', htrn', hcur', hnext', hinit', hstat', hdevs', hnum'⟩ :=
          ih g1 (tr ++ [Ev.setPos dev tn (some v0), Ev.commit]) htrans
        refine ⟨g', tr', heq, hst'.trans hst, htrn'.trans htrn, hcur'.trans hcur,
          hnext'.trans hnext, hinit'.trans hinit, hstat'.trans hstat,
          fun n => (hdevs' n).trans (hdevs n), ?_⟩
        intro n dOld dNew hOld hNew tn2 hnum
        have hview := hdevs n
        rw [hOld] at hview
        obtain ⟨dMid, hMid, -⟩ := exists_of_map_devView_eq _ _ hview
        exact hnum' n dMid dNew hMid hNew tn2 (hnum1n n dOld dMid hOld hMid tn2 hnum)
    · rw [if_neg hua]
      exact ih g tr (fun p hp => h p (List.mem_cons_of_mem _ hp))

theorem deviceMove_ok (d : DeviceState) (t : TargetCfg)
    (ht : t.target?.isSome = true)
    (hv : d.dtype = DType.valve → t.target? = some "Open" ∨ t.target? = some "Closed") :
    deviceMove d t = ({ d with target := none }, none) := by
  obtain ⟨tn, htn⟩ := Option.isSome_iff_exists.mp ht
  unfold deviceMove
  rw [htn]
  dsimp only
  cases hd : d.dtype with
  | device => rfl
  | motor => rfl
  | valve =>
    rcases hv hd with ho | ho <;> rw [htn] at ho <;>
      simp only [Option.some.injEq] at ho <;> subst ho <;> rfl

theorem assignTarget_ok (d : DeviceState) (t : TargetCfg) (hok : targetOKFor d t) :
    assignTarget d t = ({ d with target := some t }, none) := by
  obtain ⟨h1, h2, h3, h4⟩ := hok
  obtain ⟨tn, htn⟩ := Option.isSome_iff_exists.mp h1
  unfold assignTarget
  cases hd : d.dtype with
  | device => rfl
  | motor =>
    obtain ⟨ls, hls, hlen⟩ := h2 (by rw [hd]; intro hc; cases hc)
    obtain ⟨htol, hnm⟩ := h4 hd
    obtain ⟨k, hk⟩ := hnm tn htn
    obtain ⟨tol, htol2⟩ := Option.isSome_iff_exists.mp htol
    rw [htn]
    dsimp only
    rw [hls]
    dsimp only
    rw [List.get?_eq_get (show 0 < ls.length by omega)]
    dsimp only
    rw [hk]
    dsimp only
    rw [htol2]
    dsimp only
    rw [List.get?_eq_get (show 1 < ls.length by omega)]
  | valve =>
    obtain ⟨ls, hls, hlen⟩ := h2 (by rw [hd]; intro hc; cases hc)
    have hpos : DeviceState.positions d = [("Open", Val.num 1), ("Closed", Val.num 0)] := by
      unfold DeviceState.positions
      rw [hd]
    rw [htn]
    dsimp only
    rw [hls]
    dsimp only
    rw [List.get?_eq_get (show 0 < ls.length by omega)]
    dsimp only
    rcases h3 hd with ho | ho
    · have htn2 : tn = "Open" := by
        rw [htn] at ho
        exact Option.some.inj ho
      subst htn2
      rw [hpos]
      rw [show (lookupA [("Open", Val.num 1), ("Closed", Val.num 0)] "Open").getD
        (Val.str "Open") = Val.num 1 from rfl]
      dsimp only
      rw [List.get?_eq_get (show 1 < ls.length by omega)]
    · have htn2 : tn = "Closed" := by
        rw [htn] at ho
        exact Option.some.inj ho
      subst htn2
      rw [hpos]
      rw [show (lookupA [("Open", Val.num 1), ("Closed", Val.num 0)] "Closed").getD
        (Val.str "Closed") = Val.num 0 from rfl]
      dsimp only
      rw [List.get?_eq_get (show 1 < ls.length by omega)]

theorem movePhaseA_quiet (env : Env) (hab : ∀ k, env.abortAt k = false) :
    ∀ (devs : List (String × TargetCfg)) (s : ExecS) (moved : List String),
    (∀ p ∈ devs, ∃ d, lookupA s.g.devices p.1 = some d ∧
      p.2.target?.isSome = true ∧
      (d.dtype = DType.valve → p.2.target? = some "Open" ∨ p.2.target? = some "Closed")) →
    ∃ s' moved', movePhaseA env devs s moved = ((s', moved'), none) ∧
      (∀ n, n ∈ moved' ↔ n ∈ moved ∨ ∃ t, (n, t) ∈ devs) ∧
      (∀ n, (∃ t, (n, t) ∈ devs) →
        lookupA s'.g.devices n =
          (lookupA s.g.devices n).map (fun d => { d with target := none })) ∧
      (∀ n, (¬ ∃ t, (n, t) ∈ devs) → lookupA s'.g.devices n = lookupA s.g.devices n) ∧
      s'.g.states = s.g.states ∧ s'.g.transitions = s.g.transitions ∧
      s'.g.current_state = s.g.current_state ∧ s'.g.next_state = s.g.next_state ∧
      s'.g.init_state = s.g.init_state ∧ s'.g.status = s.g.status := by
  intro devs
  induction devs with
  | nil =>
    intro s moved _
    refine ⟨s, moved, rfl, fun n => ?_, fun n hn => ?_, fun n _ => rfl,
      rfl, rfl, rfl, rfl, rfl, rfl⟩
    · simp
    · obtain ⟨t, hts⟩ := hn
      cases hts
  | cons hd rest ih =>
    intro s moved h
    obtain ⟨n0, t0⟩ := hd
    rw [movePhaseA.eq_def]
    dsimp only
    rw [hab s.ta]
    simp only [Bool.false_eq_true, if_false]
    obtain ⟨d0, hd0, hts0, hv0⟩ := h (n0, t0) (List.mem_cons_self _ _)
    rw [show lookupA ({ s with ta := s.ta + 1 } : ExecS).g.devices n0 = some d0 from hd0]
    dsimp only
    rw [deviceMove_ok d0 t0 hts0 hv0]
    dsimp only
    set s3 : ExecS :=
      { s with
        g := { s.g with devices := insertA s.g.devices n0 { d0 with target := none } },
        ta := s.ta + 1,
        tr := s.tr ++ [Ev.move n0 t0] } with hs3
    set moved1 := if moved.contains n0 then moved else moved ++ [n0] with hmoved1
    have hstep : ∀ p ∈ rest, ∃ d, lookupA s3.g.devices p.1 = some d ∧
        p.2.target?.isSome = true ∧
        (d.dtype = DType.valve → p.2.target? = some "Open" ∨ p.2.target? = some "Closed") := by
      intro p hp
      obtain ⟨dp, hdp, h1, h2⟩ := h p (List.mem_cons_of_mem _ hp)
      by_cases hpn : n0 = p.1
      · subst hpn
        have hde : dp = d0 := by rw [hd0] at hdp; exact (Option.some.injEq _ _ ▸ hdp).symm
        refine ⟨{ d0 with target := none }, ?_, h1, ?_⟩
        · exact lookupA_insertA_self _ _ _
        · intro hv
          exact h2 (by rw [hde]; exact hv)
      · refine ⟨dp, ?_, h1, h2⟩
        rw [show s3.g.devices = insertA s.g.devices n0 { d0 with target := none } from rfl]
        rw [lookupA_insertA_ne _ _ _ _ hpn]
        exact hdp
    obtain ⟨s', moved', heq, hmv, hin, hout, hfr1, hfr2, hfr3, hfr4, hfr5, hfr6⟩ :=
      ih s3 moved1 hstep
    refine ⟨s', moved', heq, ?_, ?_, ?_, hfr1, hfr2, hfr3, hfr4, hfr5, hfr6⟩
    · intro n
      rw [hmv n]
      constructor
      · rintro (hn | ⟨t, ht⟩)
        · by_cases hc : moved.contains n0 = true
          · rw [hmoved1, if_pos hc] at hn
            exact Or.inl hn
          · rw [hmoved1, if_neg hc] at hn
            rcases List.mem_append.mp hn with hn | hn
            · exact Or.inl hn
            · rcases List.mem_singleton.mp hn with rfl
              exact Or.inr ⟨t0, List.mem_cons_self _ _⟩
        · exact Or.inr ⟨t, List.mem_cons_of_mem _ ht⟩
      · rintro (hn | ⟨t, ht⟩)
        · left
          by_cases hc : moved.contains n0 = true
          · rw [hmoved1, if_pos hc]
            exact hn
          · rw [hmoved1, if_neg hc]
            exact List.mem_append.mpr (Or.inl hn)
        · rcases List.mem_cons.mp ht with heq' | ht'
          · have hnn0 : n = n0 := congrArg Prod.fst heq'
            subst hnn0
            left
            by_cases hc : moved.contains n = true
            · rw [hmoved1, if_pos hc]
              simpa using hc
            · rw [hmoved1, if_neg hc]
              exact List.mem_append.mpr (Or.inr (List.mem_singleton.mpr rfl))
          · exact Or.inr ⟨t, ht'⟩
    · intro n hn
      by_cases hrest : ∃ t, (n, t) ∈ rest
      · rw [hin n hrest]
        by_cases hpn : n0 = n
        · subst hpn
          rw [show s3.g.devices = insertA s.g.devices n0 { d0 with target := none } from rfl]
          rw [lookupA_insertA_self, hd0]
          rfl
        · rw [show s3.g.devices = insertA s.g.devices n0 { d0 with target := none } from rfl]
          rw [lookupA_insertA_ne _ _ _ _ hpn]
      · rw [hout n hrest]
        obtain ⟨t, ht⟩ := hn
        rcases List.mem_cons.mp ht with heq' | ht'
        · have h1 : n = n0 := congrArg Prod.fst heq'
          rw [h1]
          rw [show s3.g.devices = insertA s.g.devices n0 { d0 with target := none } from rfl]
          rw [lookupA_insertA_self]
          rw [show lookupA s.g.devices n0 = some d0 from hd0]
          rfl
        · exact absurd ⟨t, ht'⟩ hrest
    · intro n hn
      have hn0 : ¬ n0 = n := by
        intro he
        subst he
        exact hn ⟨t0, List.mem_cons_self _ _⟩
      have hrest : ¬ ∃ t, (n, t) ∈ rest := by
        intro ⟨t, ht⟩
        exact hn ⟨t, List.mem_cons_of_mem _ ht⟩
      rw [hout n hrest]
      rw [show s3.g.devices = insertA s.g.devices n0 { d0 with target := none } from rfl]
      rw [lookupA_insertA_ne _ _ _ _ hn0]

theorem movePhaseB_quiet (env : Env) (hab : ∀ k, env.abortAt k = false) :
    ∀ (devs : List (String × TargetCfg)) (s : ExecS),
    (∀ n t t', (n, t) ∈ devs → (n, t') ∈ devs → t = t') →
    (∀ p ∈ devs, ∃ d, lookupA s.g.devices p.1 = some d ∧ targetOKFor d p.2) →
    ∃ s', movePhaseB env devs s = (s', none) ∧
      (∀ n t, (n, t) ∈ devs →
        lookupA s'.g.devices n =
          (lookupA s.g.devices n).map (fun d => { d with target := some t })) ∧
      (∀ n, (¬ ∃ t, (n, t) ∈ devs) → lookupA s'.g.devices n = lookupA s.g.devices n) ∧
      s'.g.states = s.g.states ∧ s'.g.transitions = s.g.transitions ∧
      s'.g.current_state = s.g.current_state ∧ s'.g.next_state = s.g.next_state ∧
      s'.g.init_state = s.g.init_state ∧ s'.g.status = s.g.status := by
  intro devs
  induction devs with
  | nil =>
    intro s _ _
    exact ⟨s, rfl, fun n t ht => absurd ht (List.not_mem_nil _), fun n _ => rfl,
      rfl, rfl, rfl, rfl, rfl, rfl⟩
  | cons hd rest ih =>
    intro s huniq h
    obtain ⟨n0, t0⟩ := hd
    rw [movePhaseB.eq_def]
    dsimp only
    rw [hab s.ta]
    simp only [Bool.false_eq_true, if_false]
    rw [hab (s.ta + 1)]
    simp only [Bool.false_eq_true, if_false]
    obtain ⟨d0, hd0, hok0⟩ := h (n0, t0) (List.mem_cons_self _ _)
    rw [show lookupA s.g.devices n0 = some d0 from hd0]
    dsimp only
    rw [assignTarget_ok d0 t0 hok0]
    dsimp only
    set s4 : ExecS :=
      { s with
        g := { s.g with devices := insertA s.g.devices n0 { d0 with target := some t0 } },
        tr := s.tr ++ [Ev.wait n0],
        ta := s.ta + 1 + 1 } with hs4
    have hstep : ∀ p ∈ rest, ∃ d, lookupA s4.g.devices p.1 = some d ∧
        targetOKFor d p.2 := by
      intro p hp
      obtain ⟨dp, hdp, hokp⟩ := h p (List.mem_cons_of_mem _ hp)
      by_cases hpn : n0 = p.1
      · have hde : dp = d0 := by
          rw [← hpn] at hdp
          rw [hd0] at hdp
          exact (Option.some.injEq _ _ ▸ hdp).symm
        refine ⟨{ d0 with target := some t0 }, ?_, ?_⟩
        · rw [show s4.g.devices = insertA s.g.devices n0 { d0 with target := some t0 } from rfl]
          rw [← hpn]
          exact lookupA_insertA_self _ _ _
        · refine targetOKFor_congr dp _ p.2 ?_ ?_ hokp
          · rw [hde]
          · rw [hde]
      · refine ⟨dp, ?_, hokp⟩
        rw [show s4.g.devices = insertA s.g.devices n0 { d0 with target := some t0 } from rfl]
        rw [lookupA_insertA_ne _ _ _ _ hpn]
        exact hdp
    obtain ⟨s', heq, hin, hout, hfr1, hfr2, hfr3, hfr4, hfr5, hfr6⟩ :=
      ih s4 (fun n t t' htm htm' =>
        huniq n t t' (List.mem_cons_of_mem _ htm) (List.mem_cons_of_mem _ htm')) hstep
    refine ⟨s', heq, ?_, ?_, hfr1, hfr2, hfr3, hfr4, hfr5, hfr6⟩
    · intro n t htm
      rcases List.mem_cons.mp htm with heq' | ht'
      · have h1 : n = n0 := congrArg Prod.fst heq'
        have h2 : t = t0 := congrArg Prod.snd heq'
        by_cases hrest : ∃ t', (n, t') ∈ rest
        · obtain ⟨t', ht'⟩ := hrest
          have ht0' : t' = t0 := by
            rw [h1] at ht'
            exact huniq n0 t' t0 (List.mem_cons_of_mem _ ht') (List.mem_cons_self _ _)
          rw [hin n t' ht']
          rw [h1]
          rw [show s4.g.devices = insertA s.g.devices n0 { d0 with target := some t0 } from rfl]
          rw [lookupA_insertA_self]
          rw [show lookupA s.g.devices n0 = some d0 from hd0]
          rw [ht0', h2]
          rfl
        · rw [hout n hrest]
          rw [h1]
          rw [show s4.g.devices = insertA s.g.devices n0 { d0 with target := some t0 } from rfl]
          rw [lookupA_insertA_self]
          rw [show lookupA s.g.devices n0 = some d0 from hd0]
          rw [h2]
          rfl
      · rw [hin n t ht']
        by_cases hpn : n0 = n
        · rw [show s4.g.devices = insertA s.g.devices n0 { d0 with target := some t0 } from rfl]
          rw [← hpn]
          rw [lookupA_insertA_self]
          rw [show lookupA s.g.devices n0 = some d0 from hd0]
          rfl
        · rw [show s4.g.devices = insertA s.g.devices n0 { d0 with target := some t0 } from rfl]
          rw [lookupA_insertA_ne _ _ _ _ hpn]
    · intro n hn
      have hn0 : ¬ n0 = n := by
        intro he
        subst he
        exact hn ⟨t0, List.mem_cons_self _ _⟩
      have hrest : ¬ ∃ t, (n, t) ∈ rest := by
        intro ⟨t, ht⟩
        exact hn ⟨t, List.mem_cons_of_mem _ ht⟩
      rw [hout n hrest]
      rw [show s4.g.devices = insertA s.g.devices n0 { d0 with target := some t0 } from rfl]
      rw [lookupA_insertA_ne _ _ _ _ hn0]

theorem resolveStep_ok_of (g : GovState) (targets : List (String × TargetCfg)) :
    ∀ names : List String,
    (∀ n ∈ names, (lookupA g.devices n).isSome = true ∧ (lookupA targets n).isSome = true) →
    ∃ devs, resolveStep g targets names = Except.ok devs ∧
      devs.map Prod.fst = names ∧
      (∀ p ∈ devs, lookupA targets p.1 = some p.2) := by
  intro names
  induction names with
  | nil => exact fun _ => ⟨[], rfl, rfl, fun p hp => absurd hp (List.not_mem_nil _)⟩
  | cons n rest ih =>
    intro h
    obtain ⟨hdev, htgt⟩ := h n (List.mem_cons_self _ _)
    obtain ⟨d, hd⟩ := Option.isSome_iff_exists.mp hdev
    obtain ⟨t, ht⟩ := Option.isSome_iff_exists.mp htgt
    obtain ⟨devs, hres, hmap, hall⟩ := ih (fun m hm => h m (List.mem_cons_of_mem _ hm))
    refine ⟨(n, t) :: devs, ?_, ?_, ?_⟩
    · rw [resolveStep.eq_def]
      dsimp only
      rw [hd]
      dsimp only
      rw [ht]
      dsimp only
      rw [hres]
    · simp [hmap]
    · intro p hp
      rcases List.mem_cons.mp hp with rfl | hp
      · exact ht
      · exact hall p hp

theorem moveLoop_quiet (env : Env) (targets : List (String × TargetCfg))
    (hst : ∀ k, (env.statusAt k == 3) = false) (hab : ∀ k, env.abortAt k = false) :
    ∀ (seq : List SeqItem) (s : ExecS) (moved : List String),
    (∀ n ∈ seqNamesOf seq, ∃ d t, lookupA s.g.devices n = some d ∧
      lookupA targets n = some t ∧ targetOKFor d t) →
    ∃ s' moved', moveLoop env targets seq s moved = ((s', moved'), PhaseOut.done) ∧
      (∀ n, n ∈ moved' ↔ n ∈ moved ∨ n ∈ seqNamesOf seq) ∧
      (∀ n t, n ∈ seqNamesOf seq → lookupA targets n = some t →
        lookupA s'.g.devices n =
          (lookupA s.g.devices n).map (fun d => { d with target := some t })) ∧
      (∀ n, n ∉ seqNamesOf seq → lookupA s'.g.devices n = lookupA s.g.devices n) ∧
      s'.g.states = s.g.states ∧ s'.g.transitions = s.g.transitions ∧
      s'.g.current_state = s.g.current_state ∧ s'.g.next_state = s.g.next_state ∧
      s'.g.init_state = s.g.init_state ∧ s'.g.status = s.g.status := by
  intro seq
  induction seq with
  | nil =>
    intro s moved _
    refine ⟨s, moved, rfl, fun n => ?_, fun n t hn => ?_, fun n _ => rfl,
      rfl, rfl, rfl, rfl, rfl, rfl⟩
    · simp [seqNamesOf]
    · cases hn
  | cons item rest ih =>
    intro s moved h8
    rw [moveLoop.eq_def]
    dsimp only
    rw [hst s.ts]
    simp only [Bool.false_eq_true, if_false]
    rw [itemNames_reduce item]
    have hmemitem : ∀ n ∈ itemNames item, n ∈ seqNamesOf (item :: rest) := by
      intro n hn
      simp only [seqNamesOf, List.mem_append]
      exact Or.inl hn
    have hmemrest : ∀ n ∈ seqNamesOf rest, n ∈ seqNamesOf (item :: rest) := by
      intro n hn
      simp only [seqNamesOf, List.mem_append]
      exact Or.inr hn
    have hnames : ∀ n ∈ itemNames item,
        (lookupA ({ s with ts := s.ts + 1 } : ExecS).g.devices n).isSome = true ∧
        (lookupA targets n).isSome = true := by
      intro n hn
      obtain ⟨d, t, hd, ht, -⟩ := h8 n (hmemitem n hn)
      exact ⟨by rw [show ({ s with ts := s.ts + 1 } : ExecS).g.devices
          = s.g.devices from rfl, hd]; rfl,
        by rw [ht]; rfl⟩
    obtain ⟨devs, hres, hmapn, halltg⟩ :=
      resolveStep_ok_of ({ s with ts := s.ts + 1 } : ExecS).g targets (itemNames item) hnames
    rw [hres]
    dsimp only
    have hfst : ∀ n, (∃ t, (n, t) ∈ devs) ↔ n ∈ itemNames item := by
      intro n
      constructor
      · rintro ⟨t, ht⟩
        rw [← hmapn]
        exact List.mem_map.mpr ⟨(n, t), ht, rfl⟩
      · intro hn
        rw [← hmapn] at hn
        obtain ⟨p, hp, hpe⟩ := List.mem_map.mp hn
        exact ⟨p.2, by rw [← hpe]; exact hp⟩
    have hypA : ∀ p ∈ devs, ∃ d,
        lookupA ({ s with ts := s.ts + 1 } : ExecS).g.devices p.1 = some d ∧
        p.2.target?.isSome = true ∧
        (d.dtype = DType.valve → p.2.target? = some "Open" ∨ p.2.target? = some "Closed") := by
      intro p hp
      have hp1 : p.1 ∈ itemNames item := (hfst p.1).mp ⟨p.2, by
        rw [show ((p.1 : String), (p.2 : TargetCfg)) = p from rfl]
        exact hp⟩
      obtain ⟨d, t, hd, ht, hok⟩ := h8 p.1 (hmemitem p.1 hp1)
      have hte : t = p.2 := by
        have := halltg p hp
        rw [ht] at this
        exact Option.some.inj this
      subst hte
      exact ⟨d, hd, hok.1, hok.2.2.1⟩
    obtain ⟨sA, movedA, heqA, hmvA, hinA, houtA, hfA1, hfA2, hfA3, hfA4, hfA5, hfA6⟩ :=
      movePhaseA_quiet env hab devs { s with ts := s.ts + 1 } moved hypA
    rw [heqA]
    dsimp only
    have huniq : ∀ n t t', (n, t) ∈ devs → (n, t') ∈ devs → t = t' := by
      intro n t t' h1 h2
      have e1 := halltg (n, t) h1
      have e2 := halltg (n, t') h2
      rw [e1] at e2
      exact Option.some.inj e2
    have hypB : ∀ p ∈ devs, ∃ d, lookupA sA.g.devices p.1 = some d ∧
        targetOKFor d p.2 := by
      intro p hp
      obtain ⟨d, hd, -, -⟩ := hypA p hp
      have hlook := hinA p.1 ⟨p.2, by
        rw [show ((p.1 : String), (p.2 : TargetCfg)) = p from rfl]
        exact hp⟩
      rw [hd] at hlook
      have hp1 : p.1 ∈ itemNames item := (hfst p.1).mp ⟨p.2, by
        rw [show ((p.1 : String), (p.2 : TargetCfg)) = p from rfl]
        exact hp⟩
      obtain ⟨d0, t0, hd0, ht0, hok0⟩ := h8 p.1 (hmemitem p.1 hp1)
      have hde : d0 = d := by
        rw [show lookupA ({ s with ts := s.ts + 1 } : ExecS).g.devices p.1
          = lookupA s.g.devices p.1 from rfl] at hd
        rw [hd0] at hd
        exact Option.some.inj hd
      have hte : t0 = p.2 := by
        have := halltg p hp
        rw [ht0] at this
        exact Option.some.inj this
      refine ⟨{ d with target := none }, hlook, ?_⟩
      rw [← hte]
      refine targetOKFor_congr d0 _ t0 ?_ ?_ hok0
      · rw [hde]
      · rw [hde]
    obtain ⟨sB, heqB, hinB, houtB, hfB1, hfB2, hfB3, hfB4, hfB5, hfB6⟩ :=
      movePhaseB_quiet env hab devs sA huniq hypB
    rw [heqB]
    dsimp only
    have h8rest : ∀ n ∈ seqNamesOf rest, ∃ d t, lookupA sB.g.devices n = some d ∧
        lookupA targets n = some t ∧ targetOKFor d t := by
      intro n hn
      obtain ⟨d, t, hd, ht, hok⟩ := h8 n (hmemrest n hn)
      by_cases hdev : ∃ t', (n, t') ∈ devs
      · obtain ⟨t', ht'⟩ := hdev
        have hte : t' = t := by
          have := halltg (n, t') ht'
          rw [ht] at this
          exact (Option.some.inj this).symm
        have hB := hinB n t' ht'
        have hA := hinA n ⟨t', ht'⟩
        rw [show lookupA ({ s with ts := s.ts + 1 } : ExecS).g.devices n
          = lookupA s.g.devices n from rfl, hd] at hA
        rw [hA] at hB
        refine ⟨{ d with target := some t' }, t, hB.trans rfl, ht, ?_⟩
        exact targetOKFor_congr d _ t rfl rfl hok
      · have hB := houtB n hdev
        have hA := houtA n hdev
        rw [show lookupA ({ s with ts := s.ts + 1 } : ExecS).g.devices n
          = lookupA s.g.devices n from rfl, hd] at hA
        rw [hA] at hB
        exact ⟨d, t, hB, ht, hok⟩
    obtain ⟨s', moved', heqR, hmvR, hinR, houtR, hfR1, hfR2, hfR3, hfR4, hfR5, hfR6⟩ :=
      ih sB movedA h8rest
    refine ⟨s', moved', heqR, ?_, ?_, ?_,
      hfR1.trans (hfB1.trans hfA1), hfR2.trans (hfB2.trans hfA2),
      hfR3.trans (hfB3.trans hfA3), hfR4.trans (hfB4.trans hfA4),
      hfR5.trans (hfB5.trans hfA5), hfR6.trans (hfB6.trans hfA6)⟩
    · intro n
      rw [hmvR n, hmvA n]
      constructor
      · rintro ((hm | hdev) | hr)
        · exact Or.inl hm
        · exact Or.inr (hmemitem n ((hfst n).mp hdev))
        · exact Or.inr (hmemrest n hr)
      · rintro (hm | hseq)
        · exact Or.inl (Or.inl hm)
        · simp only [seqNamesOf, List.mem_append] at hseq
          rcases hseq with hi | hr
          · exact Or.inl (Or.inr ((hfst n).mpr hi))
          · exact Or.inr hr
    · intro n t hn ht
      simp only [seqNamesOf, List.mem_append] at hn
      by_cases hr : n ∈ seqNamesOf rest
      · rw [hinR n t hr ht]
        by_cases hdev : ∃ t', (n, t') ∈ devs
        · obtain ⟨t', ht'⟩ := hdev
          have hte : t' = t := by
            have := halltg (n, t') ht'
            rw [ht] at this
            exact (Option.some.inj this).symm
          have hB := hinB n t' ht'
          have hA := hinA n ⟨t', ht'⟩
          rw [show lookupA ({ s with ts := s.ts + 1 } : ExecS).g.devices n
            = lookupA s.g.devices n from rfl] at hA
          rw [hA] at hB
          rw [hB]
          cases hlk : lookupA s.g.devices n with
          | none => rfl
          | some d => rw [hte]; rfl
        · have hB := houtB n hdev
          have hA := houtA n hdev
          rw [show lookupA ({ s with ts := s.ts + 1 } : ExecS).g.devices n
            = lookupA s.g.devices n from rfl] at hA
          rw [hB, hA]
      · rcases hn with hi | hr'
        · rw [houtR n hr]
          have hdev : ∃ t', (n, t') ∈ devs := (hfst n).mpr hi
          obtain ⟨t', ht'⟩ := hdev
          have hte : t' = t := by
            have := halltg (n, t') ht'
            rw [ht] at this
            exact (Option.some.inj this).symm
          have hB := hinB n t' ht'
          have hA := hinA n ⟨t', ht'⟩
          rw [show lookupA ({ s with ts := s.ts + 1 } : ExecS).g.devices n
            = lookupA s.g.devices n from rfl] at hA
          rw [hA] at hB
          rw [hB]
          cases hlk : lookupA s.g.devices n with
          | none => rfl
          | some d => rw [hte]; rfl
        · exact absurd hr' hr
    · intro n hn
      simp only [seqNamesOf, List.mem_append] at hn
      push_neg at hn
      have hdev : ¬ ∃ t', (n, t') ∈ devs := fun hd => hn.1 ((hfst n).mp hd)
      rw [houtR n hn.2, houtB n hdev, houtA n hdev]

theorem set_state_to_other (g : GovState) (state : String) (h1 : g.current_state ≠ state)
    (h2 : state ≠ g.init_state) :
    set_state g state false = { g with current_state := state, next_state := state } := by
  unfold set_state
  rw [if_pos (by simp [bne_iff_ne, h1]), if_neg (by simp [h2])]

theorem do_transition_inner_quiet_run (g : GovState) (dest : String)
    (tmap : List (String × TransSeq)) (sequence : TransSeq)
    (originSt destSt : StateCfg)
    (h1 : lookupA g.transitions g.current_state = some tmap)
    (h2 : lookupA tmap dest = some sequence)
    (h3 : lookupA g.states g.current_state = some originSt)
    (h4 : lookupA g.states dest = some destSt)
    (h5 : g.current_state ≠ dest)
    (h6 : dest ≠ g.init_state)
    (h7 : ∀ p ∈ originSt.targets?.getD [], p.2.updateAfter?.getD false = true →
      p.2.target?.isSome = true ∧
      ∃ d0, lookupA g.devices p.1 = some d0 ∧
        ∃ v, d0.valE = Except.ok v ∧ (v = none ∨ ∃ k, v = some (Val.num k)))
    (h8 : ∀ n ∈ seqNamesOf sequence, ∃ d t, lookupA g.devices n = some d ∧
      lookupA (destSt.targets?.getD []) n = some t ∧ targetOKFor d t) :
    ∃ sfin, do_transition_inner quietEnv
        { g := { g with status := 1 }, tr := [], ts := 0, ta := 0 } dest = (sfin, none) ∧
      sfin.g.current_state = dest ∧ sfin.g.status = 1 ∧
      (∀ n t, n ∈ seqNamesOf sequence → lookupA (destSt.targets?.getD []) n = some t →
        (lookupA sfin.g.devices n).map (fun d => d.target) = some (some t)) ∧
      (∀ n, n ∈ keysA g.devices → n ∉ seqNamesOf sequence →
        (lookupA sfin.g.devices n).map (fun d => d.target) = some none) := by
  have hreach : reachable_states g.transitions g.current_state
      = Except.ok (g.current_state :: keysA tmap) := by
    unfold reachable_states
    rw [h1]
  have hcont : ((g.current_state :: keysA tmap).contains dest) = true :=
    List.elem_eq_true_of_mem
      (List.mem_cons_of_mem _ ((mem_keysA_iff tmap dest).mpr (by rw [h2]; rfl)))
  have hne : (g.current_state == dest) = false := beq_eq_false_iff_ne.mpr h5
  obtain ⟨g2, tr2, hUA, hF1, hF2, hF3, hF4, hF5, hF6, hdevs, hnumP⟩ :=
    updateAfterLoop_quiet (originSt.targets?.getD [])
      { g with status := 1, next_state := dest } [] h7
  have hg2tr : lookupA g2.transitions g.current_state = some tmap := by
    rw [hF2]; exact h1
  have h8' : ∀ n ∈ seqNamesOf sequence, ∃ d t, lookupA g2.devices n = some d ∧
      lookupA (destSt.targets?.getD []) n = some t ∧ targetOKFor d t := by
    intro n hn
    obtain ⟨d, t, hd, ht, hok⟩ := h8 n hn
    have hview := hdevs n
    rw [show lookupA ({ g with status := 1, next_state := dest } : GovState).devices n
      = some d from hd] at hview
    obtain ⟨d2, hd2, hvw⟩ := exists_of_map_devView_eq _ _ hview
    refine ⟨d2, t, hd2, ht, ?_⟩
    refine targetOKFor_transfer d d2 t (dtype_eq_of_devView d2 d hvw).symm
      (tol_eq_of_devView d2 d hvw).symm ?_ hok
    intro tn2 hn2
    exact hnumP n d d2 hd hd2 tn2 hn2
  obtain ⟨s3, moved', hML, hmv, hin, hout, hM1, hM2, hM3, hM4, hM5, hM6⟩ :=
    moveLoop_quiet quietEnv (destSt.targets?.getD []) (fun k => rfl) (fun k => rfl)
      sequence { g := g2, tr := tr2, ts := 0 + 1, ta := 0 } [] h8'
  have hcur3 : s3.g.current_state = g.current_state := by
    rw [hM3]
    exact hF3
  have hinit3 : s3.g.init_state = g.init_state := by
    rw [hM5]
    exact hF5
  have hset : set_state s3.g dest false
      = { s3.g with current_state := dest, next_state := dest } :=
    set_state_to_other s3.g dest (by rw [hcur3]; exact h5) (by rw [hinit3]; exact h6)
  unfold do_transition_inner
  dsimp only
  rw [show quietEnv.statusAt 0 = 1 from rfl]
  rw [show ((1 : Nat) != 2) = true from rfl]
  simp only [Bool.not_true, Bool.false_eq_true, if_false]
  rw [show ({ g with status := 1 } : GovState).transitions = g.transitions from rfl, hreach]
  dsimp only
  rw [hcont]
  simp only [Bool.not_true, Bool.false_eq_true, if_false]
  rw [show lookupA ({ g with status := 1 } : GovState).states g.current_state
    = some originSt from h3]
  dsimp only
  rw [show lookupA ({ g with status := 1 } : GovState).states dest = some destSt from h4]
  dsimp only
  rw [hne]
  simp only [Bool.false_eq_true, if_false]
  rw [show updateAfterLoop
      { g with status := 1, next_state := dest } [] (originSt.targets?.getD [])
    = ((g2, tr2), none) from hUA]
  dsimp only
  rw [show lookupA g2.transitions g.current_state = some tmap from hg2tr]
  dsimp only
  rw [h2]
  dsimp only
  rw [hML]
  dsimp only
  rw [show quietEnv.statusAt s3.ts = 1 from rfl]
  rw [show ((1 : Nat) == 3) = false from rfl]
  simp only [Bool.false_eq_true, if_false]
  rw [show quietEnv.abortAt s3.ta = false from rfl]
  simp only [Bool.not_false, if_true]
  rw [hset]
  dsimp only
  refine ⟨_, rfl, rfl, ?_, ?_, ?_⟩
  · rw [hM6]
    exact hF6
  · intro n t hn ht
    dsimp only
    rw [lookupA_cleanup]
    have hcontn : moved'.contains n = true :=
      List.elem_eq_true_of_mem ((hmv n).mpr (Or.inr hn))
    rw [hcontn]
    simp only [eq_self_iff_true, if_true]
    rw [hin n t hn ht]
    obtain ⟨d, t', hd, ht', hok⟩ := h8 n hn
    have hview := hdevs n
    rw [show lookupA ({ g with status := 1, next_state := dest } : GovState).devices n
      = some d from hd] at hview
    obtain ⟨d2, hd2, hvw⟩ := exists_of_map_devView_eq _ _ hview
    rw [show lookupA ({ g := g2, tr := tr2, ts := 0 + 1, ta := 0 } : ExecS).g.devices n
      = some d2 from hd2]
    rfl
  · intro n hk hn
    dsimp only
    rw [lookupA_cleanup]
    have hnm : n ∉ moved' := by
      intro hmem
      rcases (hmv n).mp hmem with hc | hc
      · cases hc
      · exact hn hc
    have hcontn : moved'.contains n = false := by
      simp [hnm]
    rw [hcontn]
    simp only [Bool.false_eq_true, if_false]
    rw [hout n hn]
    have hsome : (lookupA g.devices n).isSome := (mem_keysA_iff _ _).mp hk
    obtain ⟨d, hd⟩ := Option.isSome_iff_exists.mp hsome
    have hview := hdevs n
    rw [show lookupA ({ g with status := 1, next_state := dest } : GovState).devices n
      = some d from hd] at hview
    obtain ⟨d2, hd2, hvw⟩ := exists_of_map_devView_eq _ _ hview
    rw [show lookupA ({ g := g2, tr := tr2, ts := 0 + 1, ta := 0 } : ExecS).g.devices n
      = some d2 from hd2]
    rfl

/-- C1 (amended): consider a declared transition to a destination `D`
different from the origin and from the init state, whose origin's
update-after targets name existing devices with numeric (or missing)
readback values, and whose sequence moves existing devices whose
destination targets pass the target-setter's band re-check without
raising (target name present; a limits pair of length ≥ 2 on hardware
devices; valves sent only to `Open`/`Closed`; motors carrying a
`tolerance` entry and a target resolving to a numeric position). When
the supervisor never sets Fault or the abort flag, the transition
completes: every device that appears in the executed transition's
*sequence* has `current_target` equal to `D`'s target for it (so its
position equals `destination.targets[device].target`), and every other
device — including one that appears in `D`'s targets but not in the
sequence — has `current_target = none`. (A transition to the init state
instead clears every device's target via `set_state`.) -/
theorem c1_transition_target_assignment (g : GovState) (dest : String)
    (tmap : List (String × TransSeq)) (sequence : TransSeq)
    (originSt destSt : StateCfg)
    (h1 : lookupA g.transitions g.current_state = some tmap)
    (h2 : lookupA tmap dest = some sequence)
    (h3 : lookupA g.states g.current_state = some originSt)
    (h4 : lookupA g.states dest = some destSt)
    (h5 : g.current_state ≠ dest)
    (h6 : dest ≠ g.init_state)
    (h7 : ∀ p ∈ originSt.targets?.getD [], p.2.updateAfter?.getD false = true →
      p.2.target?.isSome = true ∧
      ∃ d0, lookupA g.devices p.1 = some d0 ∧
        ∃ v, d0.valE = Except.ok v ∧ (v = none ∨ ∃ k, v = some (Val.num k)))
    (h8 : ∀ n ∈ seqNamesOf sequence, ∃ d t, lookupA g.devices n = some d ∧
      lookupA (destSt.targets?.getD []) n = some t ∧ targetOKFor d t) :
    (do_transition_inner quietEnv
      { g := { g with status := 1 }, tr := [], ts := 0, ta := 0 } dest).2 = none ∧
    (do_transition quietEnv g dest).1.current_state = dest ∧
    (∀ n t, n ∈ seqNamesOf sequence → lookupA (destSt.targets?.getD []) n = some t →
      (lookupA (do_transition quietEnv g dest).1.devices n).map (fun d => d.target)
        = some (some t)) ∧
    (∀ n, n ∈ keysA g.devices → n ∉ seqNamesOf sequence →
      (lookupA (do_transition quietEnv g dest).1.devices n).map (fun d => d.target)
        = some none) := by
  obtain ⟨sfin, heq, hcur, hstat, hseq, hunm⟩ :=
    do_transition_inner_quiet_run g dest tmap sequence originSt destSt
      h1 h2 h3 h4 h5 h6 h7 h8
  have hw : (do_transition quietEnv g dest).1.devices = sfin.g.devices ∧
      (do_transition quietEnv g dest).1.current_state = sfin.g.current_state := by
    unfold do_transition
    dsimp only
    rw [heq]
    dsimp only
    rw [show (sfin.g.status == 1) = true from by rw [hstat]; rfl]
    simp only [eq_self_iff_true, if_true]
    exact ⟨trivial, trivial⟩
  refine ⟨by rw [heq], by rw [hw.2]; exact hcur, ?_, ?_⟩
  · intro n t hn ht
    rw [hw.1]
    exact hseq n t hn ht
  · intro n hk hn
    rw [hw.1]
    exact hunm n hk hn

/-- Witness for C1 (amended) on the concrete governor `c1gov` and its
transition `A → B`. -/
theorem c1_witness :
    (do_transition_inner quietEnv
      { g := { c1gov with status := 1 }, tr := [], ts := 0, ta := 0 } "B").2 = none ∧
    (do_transition quietEnv c1gov "B").1.current_state = "B" ∧
    (∀ n t, n ∈ seqNamesOf [SeqItem.single "d1"] →
      lookupA (({ targets? := some c1destTargets } : StateCfg).targets?.getD []) n = some t →
      (lookupA (do_transition quietEnv c1gov "B").1.devices n).map (fun d => d.target)
        = some (some t)) ∧
    (∀ n, n ∈ keysA c1gov.devices → n ∉ seqNamesOf [SeqItem.single "d1"] →
      (lookupA (do_transition quietEnv c1gov "B").1.devices n).map (fun d => d.target)
        = some none) :=
  c1_transition_target_assignment c1gov "B" [("B", [SeqItem.single "d1"])]
    [SeqItem.single "d1"] {} { targets? := some c1destTargets }
    rfl rfl rfl rfl (by decide) (by decide)
    (fun p hp => absurd hp (List.not_mem_nil p))
    (by
      intro n hn
      have hn1 : n = "d1" := by simpa [seqNamesOf, itemNames] using hn
      subst hn1
      exact ⟨dummyDev "d1", mkTarget "p", rfl, rfl, rfl,
        fun hne => absurd rfl hne, fun hv => DType.noConfusion hv,
        fun hm => DType.noConfusion hm⟩)
